import Mathlib

/-!
# sand: tweening engine and scalable logical clock

A shallow embedding of `sand.cpp` (r-lyeh/sand).

Conventions of the embedding.

* `float` and `double` values are rationals and every arithmetic operation is
  exact; rounding of the machine formats is outside the model.
* The transcendental functions of `<cmath>` that the curves call
  (`std::sin`, `std::cos`, `std::sqrt`, `std::exp`, `std::pow`) are the fields
  of a parameter `Libm`; every theorem holds for all of them.
* `sand.hpp` is not part of the sources at hand.  The enumerators of `TYPE`
  are the ones `sand.cpp` names; their integer values are a parameter
  (`TypeEnum`), pairwise distinct because `str(int)` uses all of them as
  `case` labels of one `switch`.
* The platform counter (`gettimeofday`, the unix branch of the timer macros)
  is read through explicit `timeval` arguments: every function that reads the
  counter receives the reading it obtains.
* `time_t( x )` on a `double` truncates toward zero.
* Texts are lists of characters.  The C library functions `mktime` and
  `localtime` are parameters, since they depend on the time zone of the host;
  `mktimeUTC` and `localtimeUTC` are their values on a host in UTC, and
  `localtimeSetBack` is `localtime` on a host that sets its clocks back by an
  hour.  `strftime` is modelled for the conversions that `sand.cpp` uses.
-/

namespace sand

/-! ## Tween catalogue -/

/-- The enumerators of `TYPE` that `sand.cpp` refers to (declared in `sand.hpp`). -/
inductive TYPE
  | UNDEFINED
  | LINEAR_01
  | QUADIN_01 | QUADOUT_01 | QUADINOUT_01
  | CUBICIN_01 | CUBICOUT_01 | CUBICINOUT_01
  | QUARTIN_01 | QUARTOUT_01 | QUARTINOUT_01
  | QUINTIN_01 | QUINTOUT_01 | QUINTINOUT_01
  | SINEIN_01 | SINEOUT_01 | SINEINOUT_01
  | EXPOIN_01 | EXPOOUT_01 | EXPOINOUT_01
  | CIRCIN_01 | CIRCOUT_01 | CIRCINOUT_01
  | ELASTICIN_01 | ELASTICOUT_01 | ELASTICINOUT_01
  | BACKIN_01 | BACKOUT_01 | BACKINOUT_01
  | BOUNCEIN_01 | BOUNCEOUT_01 | BOUNCEINOUT_01
  | SINESQUARE | EXPONENTIAL
  | SCHUBRING1 | SCHUBRING2 | SCHUBRING3
  | ACELBREAK_01 | SINPI2_01
  deriving DecidableEq, Repr

/-- Every enumerator, in the order of the `case` labels of `str(int)`. -/
def TYPE.all : List TYPE :=
  [.UNDEFINED, .LINEAR_01,
   .QUADIN_01, .QUADOUT_01, .QUADINOUT_01,
   .CUBICIN_01, .CUBICOUT_01, .CUBICINOUT_01,
   .QUARTIN_01, .QUARTOUT_01, .QUARTINOUT_01,
   .QUINTIN_01, .QUINTOUT_01, .QUINTINOUT_01,
   .SINEIN_01, .SINEOUT_01, .SINEINOUT_01,
   .EXPOIN_01, .EXPOOUT_01, .EXPOINOUT_01,
   .CIRCIN_01, .CIRCOUT_01, .CIRCINOUT_01,
   .ELASTICIN_01, .ELASTICOUT_01, .ELASTICINOUT_01,
   .BACKIN_01, .BACKOUT_01, .BACKINOUT_01,
   .BOUNCEIN_01, .BOUNCEOUT_01, .BOUNCEINOUT_01,
   .SINESQUARE, .EXPONENTIAL,
   .SCHUBRING1, .SCHUBRING2, .SCHUBRING3,
   .ACELBREAK_01, .SINPI2_01]

/-- The integer values of the enumerators of `TYPE`.  The declaration lives in
`sand.hpp`; all that is used of it is that the values are pairwise distinct. -/
structure TypeEnum where
  val : TYPE → Int
  inj : Function.Injective val

/-- The `case` label, if any, that a `switch` over all enumerators selects. -/
def TypeEnum.classify (E : TypeEnum) (n : Int) : Option TYPE :=
  TYPE.all.find? (fun k => E.val k == n)

/-- The functions of `<cmath>` called by the curves. -/
structure Libm where
  sin : ℚ → ℚ
  cos : ℚ → ℚ
  sqrt : ℚ → ℚ
  exp : ℚ → ℚ
  pow : ℚ → ℚ → ℚ

/-- The literal `pi` of `tween`. -/
def pi : ℚ := 3.1415926535897932384626433832795

/-- The macro `$BOUNCE(v)`: the value assigned to `v`, for `t` and `d` as they
are when the macro is expanded. -/
def BOUNCE (t d : ℚ) : ℚ :=
  let t := t / d
  if t < 1 / 2.75 then
    1 * (7.5625 * t * t)
  else if t < 2 / 2.75 then
    let t := t - 1.5 / 2.75
    let postFix := t
    1 * (7.5625 * postFix * t + 0.75)
  else if t < 2.5 / 2.75 then
    let t := t - 2.25 / 2.75
    let postFix := t
    1 * (7.5625 * postFix * t + 0.9375)
  else
    let t := t - 2.625 / 2.75
    let postFix := t
    1 * (7.5625 * postFix * t + 0.984375)

/-- The body of `switch( tweener_type )` in `tween`, for the selected label
(`none`: no label matches).  Compound assignments inside an expression are
evaluated left to right. -/
def tweenCase (m : Libm) (label : Option TYPE) (t d : ℚ) : ℚ :=
  match label with
  | some .LINEAR_01 => t / d
  | some .SINPI2_01 =>
      let fDelta := t / d
      m.sin (fDelta * 0.5 * pi)
  | some .ACELBREAK_01 =>
      let fDelta := t / d
      (m.sin ((fDelta * pi) - (pi * 0.5)) + 1.0) * 0.5
  | some .BACKIN_01 =>
      let s : ℚ := 1.70158
      let t := t / d
      let postFix := t
      postFix * t * ((s + 1) * t - s)
  | some .BACKOUT_01 =>
      let s : ℚ := 1.70158
      let t := t / d - 1
      1 * (t * t * ((s + 1) * t + s) + 1)
  | some .BACKINOUT_01 =>
      let s : ℚ := 1.70158
      let t := t / (d / 2)
      if t < 1 then
        let s := s * 1.525
        1 / 2 * (t * t * ((s + 1) * t - s))
      else
        let t := t - 2
        let postFix := t
        let s := s * 1.525
        1 / 2 * (postFix * t * ((s + 1) * t + s) + 2)
  | some .BOUNCEIN_01 =>
      let t := d - t
      let v := BOUNCE t d
      1 - v
  | some .BOUNCEOUT_01 =>
      let v := BOUNCE t d
      v
  | some .BOUNCEINOUT_01 =>
      if t < d / 2 then
        let t := t * 2
        let t := d - t
        let v := BOUNCE t d
        (1 - v) * 0.5
      else
        let t := t * 2 - d
        let v := BOUNCE t d
        v * 0.5 + 1 * 0.5
  | some .CIRCIN_01 =>
      let t := t / d
      1 - m.sqrt (1 - t * t)
  | some .CIRCOUT_01 =>
      let t := t / d
      let t := t - 1
      m.sqrt (1 - t * t)
  | some .CIRCINOUT_01 =>
      let t := t / (d / 2)
      if t < 1 then
        -1 / 2 * (m.sqrt (1 - t * t) - 1)
      else
        let t := t - 2
        1 / 2 * (m.sqrt (1 - t * t) + 1)
  | some .ELASTICIN_01 =>
      let t := t / d
      let p : ℚ := d * 0.3
      let a : ℚ := 1
      let s := p / 4
      let t := t - 1
      let postFix := a * m.pow 2 (10 * t);
      -(postFix * m.sin ((t * d - s) * (2 * pi) / p))
  | some .ELASTICOUT_01 =>
      let p : ℚ := d * 0.3
      let a : ℚ := 1
      let s := p / 4
      a * m.pow 2 (-10 * t) * m.sin ((t * d - s) * (2 * pi) / p) + 1
  | some .ELASTICINOUT_01 =>
      let t := t / (d / 2)
      let p : ℚ := d * (0.3 * 1.5)
      let a : ℚ := 1
      let s := p / 4
      if t < 1 then
        let t := t - 1
        let postFix := a * m.pow 2 (10 * t);
        -0.5 * (postFix * m.sin ((t * d - s) * (2 * pi) / p))
      else
        let t := t - 1
        let postFix := a * m.pow 2 (-10 * t)
        postFix * m.sin ((t * d - s) * (2 * pi) / p) * 0.5 + 1
  | some .EXPOIN_01 => m.pow 2 (10 * (t / d - 1))
  | some .EXPOOUT_01 => 1 - (if t = d then 0 else m.pow 2 (-10 * (t / d)))
  | some .EXPOINOUT_01 =>
      let t := t / (d / 2)
      if t < 1 then
        1 / 2 * m.pow 2 (10 * (t - 1))
      else
        let t := t - 1
        1 / 2 * (-m.pow 2 (-10 * t) + 2)
  | some .QUADIN_01 =>
      let t := t / d
      t * t
  | some .QUADOUT_01 =>
      let t := t / d
      (2 - t) * t
  | some .QUADINOUT_01 =>
      let t := t / (d / 2)
      if t < 1 then
        1 / 2 * t * t
      else
        let t := t - 1;
        -1 / 2 * (t * (t - 2) - 1)
  | some .CUBICIN_01 =>
      let t := t / d
      t * t * t
  | some .CUBICOUT_01 =>
      let t := t / d
      let t := t - 1
      1 + t * t * t
  | some .CUBICINOUT_01 =>
      let t := t / (d / 2)
      if t < 1 then
        1 / 2 * t * t * t
      else
        let t := t - 2
        1 / 2 * (t * t * t + 2)
  | some .QUARTIN_01 =>
      let t := t / d
      t * t * t * t
  | some .QUARTOUT_01 =>
      let t := t / d
      let t := t - 1
      1 - t * t * t * t
  | some .QUARTINOUT_01 =>
      let t := t / (d / 2)
      if t < 1 then
        1 / 2 * t * t * t * t
      else
        let t := t - 2;
        -1 / 2 * (t * t * t * t - 2)
  | some .QUINTIN_01 =>
      let t := t / d
      t * t * t * t * t
  | some .QUINTOUT_01 =>
      let t := t / d
      let t := t - 1
      1 + t * t * t * t * t
  | some .QUINTINOUT_01 =>
      let t := t / (d / 2)
      if t < 1 then
        1 / 2 * t * t * t * t * t
      else
        let t := t - 2
        1 / 2 * (t * t * t * t * t + 2)
  | some .SINEIN_01 => 1 - m.cos (t / d * (pi / 2))
  | some .SINEOUT_01 => m.sin (t / d * (pi / 2))
  | some .SINEINOUT_01 => -1 / 2 * (m.cos (pi * t / d) - 1)
  | some .SINESQUARE =>
      let A := m.sin (0.5 * (t / d) * pi)
      A * A
  | some .EXPONENTIAL => 1 / (1 + m.exp (6 - 12 * (t / d)))
  | some .SCHUBRING1 =>
      let t := t / d
      2 * (t + (0.5 - t) * |0.5 - t|) - 0.5
  | some .SCHUBRING2 =>
      let t := t / d
      let p1pass := 2 * (t + (0.5 - t) * |0.5 - t|) - 0.5
      let p2pass := 2 * (p1pass + (0.5 - p1pass) * |0.5 - p1pass|) - 0.5
      p2pass
  | some .SCHUBRING3 =>
      let t := t / d
      let p1pass := 2 * (t + (0.5 - t) * |0.5 - t|) - 0.5
      let p2pass := 2 * (p1pass + (0.5 - p1pass) * |0.5 - p1pass|) - 0.5
      let pAvg := (p1pass + p2pass) / 2
      pAvg
  | some .UNDEFINED => 0
  | none => 0

/-- The loop `while( t >= d ) t -= d;` of the looped mode, with fuel. -/
def loopWrap : Nat → ℚ → ℚ → ℚ
  | 0, t, _ => t
  | fuel + 1, t, d => if t ≥ d then loopWrap fuel (t - d) d else t

/-- Source: `float tween( int tweener_type, float current )`. -/
def tween (E : TypeEnum) (m : Libm) (tweener_type : Int) (current : ℚ) : ℚ :=
  let looped := false
  let d : ℚ := 1
  let t := current
  if d ≤ 0 ∨ t ≤ 0 then
    0
  else if t ≥ d then
    if looped then
      tweenCase m (E.classify tweener_type) (loopWrap (Int.toNat ⌊t / d⌋) t d) d
    else
      1
  else
    tweenCase m (E.classify tweener_type) t d

/-- Source: `float linear( float dt01 )`. -/
def linear (dt01 : ℚ) : ℚ := dt01

/-! ## Memoized evaluators -/

/-- Source: `enum { SLOTS = 256 }` of the macro `$with`. -/
def SLOTS : Nat := 256

/-- The conversion `int( x )` of a floating value: truncation toward zero. -/
def toInt (x : ℚ) : Int := if 0 ≤ x then ⌊x⌋ else ⌈x⌉

/-- The filling loop of `$with`:
`for( int i = 0; i < SLOTS; ++i ) lut.push_back( tween( TYPE::type, float(i) / (SLOTS-1) ) )`. -/
def fillLut (E : TypeEnum) (m : Libm) (type : TYPE) (lut : List ℚ) : List ℚ :=
  (List.range SLOTS).foldl
    (fun lut (i : Nat) => lut ++ [tween E m (E.val type) ((i : ℚ) / ((SLOTS : ℚ) - 1))]) lut

/-- The macro `$with(fn,type)`: the function `fn` it defines.  The function-local
`static std::vector<float> lut` is passed in and returned; the result is `none`
when `lut[ ... ]` would index outside the vector. -/
def with_ (E : TypeEnum) (m : Libm) (type : TYPE) (lut : List ℚ) (dt01 : ℚ) :
    Option ℚ × List ℚ :=
  let lut := if lut.isEmpty then fillLut E m type lut else lut
  (if dt01 < 0 then some 0
   else if dt01 ≥ 1 then some 1
   else
     let i := toInt (dt01 * ((SLOTS : ℚ) - 1))
     if 0 ≤ i then lut[i.toNat]? else none,
   lut)

/-- The type of the functions that `$with` defines, the static table made explicit. -/
abbrev Memoized : Type := List ℚ → ℚ → Option ℚ × List ℚ

/-- Source: `$with( quadin, QUADIN_01 )`. -/
def quadin (E : TypeEnum) (m : Libm) : Memoized := with_ E m .QUADIN_01

/-- Source: `$with( quadout, QUADOUT_01 )`. -/
def quadout (E : TypeEnum) (m : Libm) : Memoized := with_ E m .QUADOUT_01

/-- Source: `$with( quadinout, QUADINOUT_01 )`. -/
def quadinout (E : TypeEnum) (m : Libm) : Memoized := with_ E m .QUADINOUT_01

/-- Source: `$with( cubicin, CUBICIN_01 )`. -/
def cubicin (E : TypeEnum) (m : Libm) : Memoized := with_ E m .CUBICIN_01

/-- Source: `$with( cubicout, CUBICOUT_01 )`. -/
def cubicout (E : TypeEnum) (m : Libm) : Memoized := with_ E m .CUBICOUT_01

/-- Source: `$with( cubicinout, CUBICINOUT_01 )`. -/
def cubicinout (E : TypeEnum) (m : Libm) : Memoized := with_ E m .CUBICINOUT_01

/-- Source: `$with( quartin, QUARTIN_01 )`. -/
def quartin (E : TypeEnum) (m : Libm) : Memoized := with_ E m .QUARTIN_01

/-- Source: `$with( quartout, QUARTOUT_01 )`. -/
def quartout (E : TypeEnum) (m : Libm) : Memoized := with_ E m .QUARTOUT_01

/-- Source: `$with( quartinout, QUARTINOUT_01 )`. -/
def quartinout (E : TypeEnum) (m : Libm) : Memoized := with_ E m .QUARTINOUT_01

/-- Source: `$with( quintin, QUINTIN_01 )`. -/
def quintin (E : TypeEnum) (m : Libm) : Memoized := with_ E m .QUINTIN_01

/-- Source: `$with( quintout, QUINTOUT_01 )`. -/
def quintout (E : TypeEnum) (m : Libm) : Memoized := with_ E m .QUINTOUT_01

/-- Source: `$with( quintinout, QUINTINOUT_01 )`. -/
def quintinout (E : TypeEnum) (m : Libm) : Memoized := with_ E m .QUINTINOUT_01

/-- Source: `$with( sinein, SINEIN_01 )`. -/
def sinein (E : TypeEnum) (m : Libm) : Memoized := with_ E m .SINEIN_01

/-- Source: `$with( sineout, SINEOUT_01 )`. -/
def sineout (E : TypeEnum) (m : Libm) : Memoized := with_ E m .SINEOUT_01

/-- Source: `$with( sineinout, SINEINOUT_01 )`. -/
def sineinout (E : TypeEnum) (m : Libm) : Memoized := with_ E m .SINEINOUT_01

/-- Source: `$with( expoin, EXPOIN_01 )`. -/
def expoin (E : TypeEnum) (m : Libm) : Memoized := with_ E m .EXPOIN_01

/-- Source: `$with( expoout, EXPOOUT_01 )`. -/
def expoout (E : TypeEnum) (m : Libm) : Memoized := with_ E m .EXPOOUT_01

/-- Source: `$with( expoinout, EXPOINOUT_01 )`. -/
def expoinout (E : TypeEnum) (m : Libm) : Memoized := with_ E m .EXPOINOUT_01

/-- Source: `$with( circin, CIRCIN_01 )`. -/
def circin (E : TypeEnum) (m : Libm) : Memoized := with_ E m .CIRCIN_01

/-- Source: `$with( circout, CIRCOUT_01 )`. -/
def circout (E : TypeEnum) (m : Libm) : Memoized := with_ E m .CIRCOUT_01

/-- Source: `$with( circinout, CIRCINOUT_01 )`. -/
def circinout (E : TypeEnum) (m : Libm) : Memoized := with_ E m .CIRCINOUT_01

/-- Source: `$with( elasticin, ELASTICIN_01 )`. -/
def elasticin (E : TypeEnum) (m : Libm) : Memoized := with_ E m .ELASTICIN_01

/-- Source: `$with( elasticout, ELASTICOUT_01 )`. -/
def elasticout (E : TypeEnum) (m : Libm) : Memoized := with_ E m .ELASTICOUT_01

/-- Source: `$with( elasticinout, ELASTICINOUT_01 )`. -/
def elasticinout (E : TypeEnum) (m : Libm) : Memoized := with_ E m .ELASTICINOUT_01

/-- Source: `$with( backin, BACKIN_01 )`. -/
def backin (E : TypeEnum) (m : Libm) : Memoized := with_ E m .BACKIN_01

/-- Source: `$with( backout, BACKOUT_01 )`. -/
def backout (E : TypeEnum) (m : Libm) : Memoized := with_ E m .BACKOUT_01

/-- Source: `$with( backinout, BACKINOUT_01 )`. -/
def backinout (E : TypeEnum) (m : Libm) : Memoized := with_ E m .BACKINOUT_01

/-- Source: `$with( bouncein, BOUNCEIN_01 )`. -/
def bouncein (E : TypeEnum) (m : Libm) : Memoized := with_ E m .BOUNCEIN_01

/-- Source: `$with( bounceout, BOUNCEOUT_01 )`. -/
def bounceout (E : TypeEnum) (m : Libm) : Memoized := with_ E m .BOUNCEOUT_01

/-- Source: `$with( bounceinout, BOUNCEINOUT_01 )`. -/
def bounceinout (E : TypeEnum) (m : Libm) : Memoized := with_ E m .BOUNCEINOUT_01

/-- Source: `$with( sinesquare, SINESQUARE )`. -/
def sinesquare (E : TypeEnum) (m : Libm) : Memoized := with_ E m .SINESQUARE

/-- Source: `$with( exponential, EXPONENTIAL )`. -/
def exponential (E : TypeEnum) (m : Libm) : Memoized := with_ E m .EXPONENTIAL

/-- Source: `$with( terrys1, SCHUBRING1 )`. -/
def terrys1 (E : TypeEnum) (m : Libm) : Memoized := with_ E m .SCHUBRING1

/-- Source: `$with( terrys2, SCHUBRING2 )`. -/
def terrys2 (E : TypeEnum) (m : Libm) : Memoized := with_ E m .SCHUBRING2

/-- Source: `$with( terrys3, SCHUBRING3 )`. -/
def terrys3 (E : TypeEnum) (m : Libm) : Memoized := with_ E m .SCHUBRING3

/-- Source: `$with( acelbreak, ACELBREAK_01 )`. -/
def acelbreak (E : TypeEnum) (m : Libm) : Memoized := with_ E m .ACELBREAK_01

/-- Source: `$with( sinpi2, SINPI2_01 )`. -/
def sinpi2 (E : TypeEnum) (m : Libm) : Memoized := with_ E m .SINPI2_01

/-- The expansions of `$with` in `sand.cpp`: each function with the curve it samples. -/
def memoized (E : TypeEnum) (m : Libm) : List (Memoized × TYPE) :=
  [(quadin E m, .QUADIN_01),
   (quadout E m, .QUADOUT_01),
   (quadinout E m, .QUADINOUT_01),
   (cubicin E m, .CUBICIN_01),
   (cubicout E m, .CUBICOUT_01),
   (cubicinout E m, .CUBICINOUT_01),
   (quartin E m, .QUARTIN_01),
   (quartout E m, .QUARTOUT_01),
   (quartinout E m, .QUARTINOUT_01),
   (quintin E m, .QUINTIN_01),
   (quintout E m, .QUINTOUT_01),
   (quintinout E m, .QUINTINOUT_01),
   (sinein E m, .SINEIN_01),
   (sineout E m, .SINEOUT_01),
   (sineinout E m, .SINEINOUT_01),
   (expoin E m, .EXPOIN_01),
   (expoout E m, .EXPOOUT_01),
   (expoinout E m, .EXPOINOUT_01),
   (circin E m, .CIRCIN_01),
   (circout E m, .CIRCOUT_01),
   (circinout E m, .CIRCINOUT_01),
   (elasticin E m, .ELASTICIN_01),
   (elasticout E m, .ELASTICOUT_01),
   (elasticinout E m, .ELASTICINOUT_01),
   (backin E m, .BACKIN_01),
   (backout E m, .BACKOUT_01),
   (backinout E m, .BACKINOUT_01),
   (bouncein E m, .BOUNCEIN_01),
   (bounceout E m, .BOUNCEOUT_01),
   (bounceinout E m, .BOUNCEINOUT_01),
   (sinesquare E m, .SINESQUARE),
   (exponential E m, .EXPONENTIAL),
   (terrys1 E m, .SCHUBRING1),
   (terrys2 E m, .SCHUBRING2),
   (terrys3 E m, .SCHUBRING3),
   (acelbreak E m, .ACELBREAK_01),
   (sinpi2 E m, .SINPI2_01)]

/-- The values that the static table of a memoized function takes: empty when
the program starts, then what each call leaves behind. -/
inductive LutReachable (f : Memoized) : List ℚ → Prop
  | start : LutReachable f []
  | call {lut : List ℚ} (dt01 : ℚ) : LutReachable f lut → LutReachable f (f lut dt01).2

/-- The table of `SLOTS` samples that the specification describes: entry `i` is
the direct evaluation at phase `i / (SLOTS - 1)`. -/
def specTable (E : TypeEnum) (m : Libm) (type : TYPE) : List ℚ :=
  (List.range SLOTS).map (fun (i : Nat) => tween E m (E.val type) ((i : ℚ) / 255))

/-- The index that the specification describes: the phase clamped to [0,1],
scaled by `SLOTS - 1` and rounded down. -/
def specIndex (phase : ℚ) : Int :=
  ⌊max 0 (min phase 1) * 255⌋

/-- A numbering of the enumerators (the position in the declaration), used to
instantiate the statements on concrete inputs. -/
def sampleEnum : TypeEnum :=
  ⟨fun k => (k.toCtorIdx : Int), by
    intro a b h
    cases a <;> cases b <;> first | rfl | (exact absurd h (by decide))⟩

/-- Stand-ins for the `<cmath>` functions, used to instantiate the statements on
concrete inputs. -/
def sampleLibm : Libm :=
  ⟨fun _ => 0, fun _ => 0, fun _ => 0, fun _ => 0, fun _ _ => 0⟩

/-- The memoized "in" and "out" evaluators of the four power families, each
pair with the degree of its curve. -/
def powerFamilies (E : TypeEnum) (m : Libm) : List (Memoized × Memoized × Nat) :=
  [(quadin E m, quadout E m, 2), (cubicin E m, cubicout E m, 3),
   (quartin E m, quartout E m, 4), (quintin E m, quintout E m, 5)]

/-! ## Families of curves and standard formulas -/

/-- The in, out and in-out curves of the four power families. -/
def powerCurves : List (TYPE × TYPE × TYPE) :=
  [(.QUADIN_01, .QUADOUT_01, .QUADINOUT_01), (.CUBICIN_01, .CUBICOUT_01, .CUBICINOUT_01),
   (.QUARTIN_01, .QUARTOUT_01, .QUARTINOUT_01), (.QUINTIN_01, .QUINTOUT_01, .QUINTINOUT_01)]

/-- The curves that the specification counts as range-bound: the power curves
and the bounce curves. -/
def rangeBound : List TYPE :=
  [.QUADIN_01, .QUADOUT_01, .QUADINOUT_01, .CUBICIN_01, .CUBICOUT_01, .CUBICINOUT_01,
   .QUARTIN_01, .QUARTOUT_01, .QUARTINOUT_01, .QUINTIN_01, .QUINTOUT_01, .QUINTINOUT_01,
   .BOUNCEIN_01, .BOUNCEOUT_01, .BOUNCEINOUT_01]

/-- The standard elastic ease-in over the unit duration, with amplitude `a`,
period `p` and shift `s`. -/
def standardElasticIn (m : Libm) (a p s x : ℚ) : ℚ :=
  -(a * m.pow 2 (10 * (x - 1)) * m.sin (((x - 1) - s) * (2 * pi) / p))

/-- The standard elastic ease-out over the unit duration, with amplitude `a`,
period `p` and shift `s`. -/
def standardElasticOut (m : Libm) (a p s x : ℚ) : ℚ :=
  a * m.pow 2 (-10 * x) * m.sin ((x - s) * (2 * pi) / p) + 1

/-- The standard elastic ease-in-out over the unit duration, with amplitude `a`,
period `p` and shift `s`. -/
def standardElasticInOut (m : Libm) (a p s x : ℚ) : ℚ :=
  if 2 * x < 1 then
    -(1 / 2) * (a * m.pow 2 (10 * (2 * x - 1)) * m.sin (((2 * x - 1) - s) * (2 * pi) / p))
  else
    a * m.pow 2 (-10 * (2 * x - 1)) * m.sin (((2 * x - 1) - s) * (2 * pi) / p) * (1 / 2) + 1

/-- Stand-ins for the `<cmath>` functions that keep their argument visible
(`sin x = x`, `pow b e = b`), used to tell formulas apart on concrete inputs. -/
def probeLibm : Libm :=
  ⟨fun x => x, fun x => x, fun x => x, fun x => x, fun b _ => b⟩

/-! ## Timer -/

/-- The `timeval` that `gettimeofday` fills in (`kSandTimerHandle`). -/
structure timeval where
  tv_sec : Int
  tv_usec : Int
  deriving DecidableEq, Repr

/-- The macro `kSandTimerDiffCounter( handle1, handle2 )`, in microseconds. -/
def kSandTimerDiffCounter (handle1 handle2 : timeval) : ℚ :=
  ((handle2.tv_sec : ℚ) * 1000000.0 + (handle2.tv_usec : ℚ))
    - ((handle1.tv_sec : ℚ) * 1000000.0 + (handle1.tv_usec : ℚ))

/-- The class `legacy::dt`; `frequency` is unused on the unix branch. -/
structure dt where
  startCount : timeval
  endCount : timeval
  deriving DecidableEq, Repr

/-- Source: `void dt::reset()`; `now` is the counter reading stored in `startCount`. -/
def dt.reset (self : dt) (now : timeval) : dt :=
  let self := { self with startCount := ⟨0, 0⟩ }
  let self := { self with endCount := ⟨0, 0⟩ }
  { self with startCount := now }

/-- Source: `double dt::us()`; `now` is the counter reading stored in `endCount`. -/
def dt.us (self : dt) (now : timeval) : ℚ × dt :=
  let self := { self with endCount := now }
  (kSandTimerDiffCounter self.startCount self.endCount, self)

/-- Source: `double dt::s()`. -/
def dt.s (self : dt) (now : timeval) : ℚ × dt :=
  let r := self.us now
  (r.1 / 1000000.0, r.2)

/-! ## Logical clock -/

/-- The data members of the class `rtc` that `sand.cpp` uses. -/
structure rtc where
  held : Bool
  creation : Int
  dt : dt
  factor : ℚ
  deriving DecidableEq, Repr

/-- The conversion `time_t( x )` of a `double`: truncation toward zero. -/
def time_t (x : ℚ) : Int := toInt x

/-- How a member function with an `assert` ends: it returns, or the assertion
fails and the process aborts; either way with the object as it is then. -/
inductive Outcome
  | returned (self : rtc)
  | aborted (self : rtc)
  deriving DecidableEq, Repr

/-- Source: `time_t rtc::time_obj()`. -/
def rtc.time_obj (self : rtc) (now : timeval) : Int × rtc :=
  let r := self.dt.s now
  (self.creation + time_t (self.factor * r.1), { self with dt := r.2 })

/-- Source: `time_t rtc::elapsed()`. -/
def rtc.elapsed (self : rtc) (now : timeval) : Int × rtc :=
  let r := self.dt.s now
  (time_t (self.factor * r.1), { self with dt := r.2 })

/-- Source: `void rtc::set( const double &t )`. -/
def rtc.set (self : rtc) (t : ℚ) (now : timeval) : rtc :=
  let self := { self with held := false }
  let self := { self with creation := time_t t }
  { self with dt := self.dt.reset now }

/-- Source: `void rtc::reset()`. -/
def rtc.reset (self : rtc) (now : timeval) : rtc :=
  self.set 0 now

/-- Source: `void rtc::shift( double f )`. -/
def rtc.shift (self : rtc) (f : ℚ) : Outcome :=
  if f > 0.0 then
    .returned { self with factor := f }
  else
    .aborted self

/-- Source: `void rtc::pause()`. -/
def rtc.pause (self : rtc) : rtc :=
  { self with held := true }

/-- Source: `double rtc::resume()`. -/
def rtc.resume (self : rtc) (now : timeval) : ℚ × rtc :=
  let self := { self with held := false }
  let r := self.time_obj now
  (((r.1 - r.2.creation : Int) : ℚ), r.2)

/-- Source: `double rtc::update()`; `now₁` is the counter reading of `elapsed()` and
`now₂` the later one of the `dt.reset()` inside `set`. -/
def rtc.update (self : rtc) (now₁ now₂ : timeval) : ℚ × rtc :=
  if self.held then
    ((self.creation : ℚ), self)
  else
    let r := self.elapsed now₁
    let self := r.2.set ((r.2.creation : ℚ) + (r.1 : ℚ)) now₂
    ((self.creation : ℚ), self)

/-- Source: `double rtc::get() const`. -/
def rtc.get (self : rtc) : ℚ := (self.creation : ℚ)

/-- Source: `rtc::rtc()`: `time0` is the value of `std::time( 0 )`. -/
def rtc.ctor (time0 : Int) (now : timeval) : rtc :=
  rtc.set { held := false, creation := 0, dt := dt.reset ⟨⟨0, 0⟩, ⟨0, 0⟩⟩ now, factor := 1.0 }
    (time0 : ℚ) now

/-! ## Text import -/

/-- Source: `custom::tokenize`, one iteration of the loop over the characters. -/
def tokenizeStep (chars : List Char) (tokens : List (List Char)) (c : Char) :
    List (List Char) :=
  match tokens.getLast? with
  | none => tokens
  | some str =>
    if c ∉ chars then tokens.dropLast ++ [str ++ [c]]
    else if str.length ≠ 0 then tokens ++ [[]]
    else tokens

/-- Source: `std::deque<custom> custom::tokenize( const std::string &chars ) const`. -/
def tokenize (self : List Char) (chars : List Char) : List (List Char) :=
  let tokens := self.foldl (tokenizeStep chars) [[]]
  tokens.rdropWhile (fun tk => tk.length == 0)

/-- The value of a run of decimal digits. -/
def digitsValue (ds : List Char) : Nat :=
  ds.foldl (fun acc c => 10 * acc + (c.toNat - 48)) 0

/-- Source: `custom::as<int>()`: formatted extraction of an `int` from the text (leading
white space skipped, optional sign, decimal digits up to the first other
character), and `int()` when the extraction fails (no digit, or a value
outside the 32-bit range). -/
def as_int (self : List Char) : Int :=
  let rest := self.dropWhile (fun c => c == ' ' || (9 ≤ c.toNat && c.toNat ≤ 13))
  let neg := rest.head? == some '-'
  let rest := if rest.head? == some '-' || rest.head? == some '+' then rest.tail else rest
  let ds := rest.takeWhile Char.isDigit
  if ds.isEmpty then 0
  else
    let v : Int := if neg then -(digitsValue ds : Int) else (digitsValue ds : Int)
    if v < -2147483648 ∨ 2147483647 < v then 0 else v

/-- The fields of `struct tm` that `rtc::str` fills in. -/
structure tm where
  tm_sec : Int
  tm_min : Int
  tm_hour : Int
  tm_mday : Int
  tm_mon : Int
  tm_year : Int
  tm_isdst : Int
  deriving DecidableEq, Repr

/-- Source: `void rtc::str( const std::string& import )`; `mktime` is the C library
function (it depends on the time zone of the host). -/
def rtc.str_import (mktime : tm → Int) (self : rtc) (import_ : List Char)
    (now : timeval) : rtc :=
  let token := tokenize import_ [':', '-', '/', ' ']
  if token.length < 6 then
    self.set 0 now
  else
    let timeinfo : tm :=
      { tm_year := as_int (token.getD 0 []) - 1900
        tm_mon := as_int (token.getD 1 []) - 1
        tm_mday := as_int (token.getD 2 [])
        tm_hour := as_int (token.getD 3 [])
        tm_min := as_int (token.getD 4 [])
        tm_sec := as_int (token.getD 5 [])
        tm_isdst := -1 }
    let self := { self with factor := 1.0 }
    self.set ((mktime timeinfo : Int) : ℚ) now

/-- Source: `rtc::rtc( const std::string &import )`. -/
def rtc.ctor_import (mktime : tm → Int) (import_ : List Char) (now : timeval) : rtc :=
  rtc.str_import mktime
    { held := false, creation := 0, dt := dt.reset ⟨⟨0, 0⟩, ⟨0, 0⟩⟩ now, factor := 1.0 }
    import_ now

/-- The clock states that the constructors and member functions of `rtc` produce. -/
inductive Reachable (mktime : tm → Int) : rtc → Prop
  | ctor (time0 : Int) (now : timeval) : Reachable mktime (rtc.ctor time0 now)
  | ctor_import (import_ : List Char) (now : timeval) :
      Reachable mktime (rtc.ctor_import mktime import_ now)
  | time_obj {c : rtc} (now : timeval) : Reachable mktime c → Reachable mktime (c.time_obj now).2
  | elapsed {c : rtc} (now : timeval) : Reachable mktime c → Reachable mktime (c.elapsed now).2
  | reset {c : rtc} (now : timeval) : Reachable mktime c → Reachable mktime (c.reset now)
  | set {c : rtc} (t : ℚ) (now : timeval) : Reachable mktime c → Reachable mktime (c.set t now)
  | shift {c c1 : rtc} (f : ℚ) :
      Reachable mktime c → c.shift f = .returned c1 → Reachable mktime c1
  | pause {c : rtc} : Reachable mktime c → Reachable mktime c.pause
  | resume {c : rtc} (now : timeval) : Reachable mktime c → Reachable mktime (c.resume now).2
  | update {c : rtc} (now₁ now₂ : timeval) :
      Reachable mktime c → Reachable mktime (c.update now₁ now₂).2
  | str_import {c : rtc} (import_ : List Char) (now : timeval) :
      Reachable mktime c → Reachable mktime (c.str_import mktime import_ now)

/-! ## Names of the curves -/

/-- Source: `const char *str( int type )`.  The label `default:` stands in front
of `case TYPE::UNDEFINED:`, so a value that matches no label gets that name. -/
def str (E : TypeEnum) (type : Int) : String :=
  match E.classify type with
  | none => "UNDEFINED"
  | some .UNDEFINED => "UNDEFINED"
  | some .LINEAR_01 => "LINEAR_01"
  | some .QUADIN_01 => "QUADIN_01"
  | some .QUADOUT_01 => "QUADOUT_01"
  | some .QUADINOUT_01 => "QUADINOUT_01"
  | some .CUBICIN_01 => "CUBICIN_01"
  | some .CUBICOUT_01 => "CUBICOUT_01"
  | some .CUBICINOUT_01 => "CUBICINOUT_01"
  | some .QUARTIN_01 => "QUARTIN_01"
  | some .QUARTOUT_01 => "QUARTOUT_01"
  | some .QUARTINOUT_01 => "QUARTINOUT_01"
  | some .QUINTIN_01 => "QUINTIN_01"
  | some .QUINTOUT_01 => "QUINTOUT_01"
  | some .QUINTINOUT_01 => "QUINTINOUT_01"
  | some .SINEIN_01 => "SINEIN_01"
  | some .SINEOUT_01 => "SINEOUT_01"
  | some .SINEINOUT_01 => "SINEINOUT_01"
  | some .EXPOIN_01 => "EXPOIN_01"
  | some .EXPOOUT_01 => "EXPOOUT_01"
  | some .EXPOINOUT_01 => "EXPOINOUT_01"
  | some .CIRCIN_01 => "CIRCIN_01"
  | some .CIRCOUT_01 => "CIRCOUT_01"
  | some .CIRCINOUT_01 => "CIRCINOUT_01"
  | some .ELASTICIN_01 => "ELASTICIN_01"
  | some .ELASTICOUT_01 => "ELASTICOUT_01"
  | some .ELASTICINOUT_01 => "ELASTICINOUT_01"
  | some .BACKIN_01 => "BACKIN_01"
  | some .BACKOUT_01 => "BACKOUT_01"
  | some .BACKINOUT_01 => "BACKINOUT_01"
  | some .BOUNCEIN_01 => "BOUNCEIN_01"
  | some .BOUNCEOUT_01 => "BOUNCEOUT_01"
  | some .BOUNCEINOUT_01 => "BOUNCEINOUT_01"
  | some .SINESQUARE => "SINESQUARE"
  | some .EXPONENTIAL => "EXPONENTIAL"
  | some .SCHUBRING1 => "SCHUBRING1"
  | some .SCHUBRING2 => "SCHUBRING2"
  | some .SCHUBRING3 => "SCHUBRING3"
  | some .ACELBREAK_01 => "ACELBREAK_01"
  | some .SINPI2_01 => "SINPI2_01"

/-- The identifier of each enumerator, as it is written in `sand.cpp`. -/
def TYPE.identifier : TYPE → String
  | .UNDEFINED => "UNDEFINED"
  | .LINEAR_01 => "LINEAR_01"
  | .QUADIN_01 => "QUADIN_01"
  | .QUADOUT_01 => "QUADOUT_01"
  | .QUADINOUT_01 => "QUADINOUT_01"
  | .CUBICIN_01 => "CUBICIN_01"
  | .CUBICOUT_01 => "CUBICOUT_01"
  | .CUBICINOUT_01 => "CUBICINOUT_01"
  | .QUARTIN_01 => "QUARTIN_01"
  | .QUARTOUT_01 => "QUARTOUT_01"
  | .QUARTINOUT_01 => "QUARTINOUT_01"
  | .QUINTIN_01 => "QUINTIN_01"
  | .QUINTOUT_01 => "QUINTOUT_01"
  | .QUINTINOUT_01 => "QUINTINOUT_01"
  | .SINEIN_01 => "SINEIN_01"
  | .SINEOUT_01 => "SINEOUT_01"
  | .SINEINOUT_01 => "SINEINOUT_01"
  | .EXPOIN_01 => "EXPOIN_01"
  | .EXPOOUT_01 => "EXPOOUT_01"
  | .EXPOINOUT_01 => "EXPOINOUT_01"
  | .CIRCIN_01 => "CIRCIN_01"
  | .CIRCOUT_01 => "CIRCOUT_01"
  | .CIRCINOUT_01 => "CIRCINOUT_01"
  | .ELASTICIN_01 => "ELASTICIN_01"
  | .ELASTICOUT_01 => "ELASTICOUT_01"
  | .ELASTICINOUT_01 => "ELASTICINOUT_01"
  | .BACKIN_01 => "BACKIN_01"
  | .BACKOUT_01 => "BACKOUT_01"
  | .BACKINOUT_01 => "BACKINOUT_01"
  | .BOUNCEIN_01 => "BOUNCEIN_01"
  | .BOUNCEOUT_01 => "BOUNCEOUT_01"
  | .BOUNCEINOUT_01 => "BOUNCEINOUT_01"
  | .SINESQUARE => "SINESQUARE"
  | .EXPONENTIAL => "EXPONENTIAL"
  | .SCHUBRING1 => "SCHUBRING1"
  | .SCHUBRING2 => "SCHUBRING2"
  | .SCHUBRING3 => "SCHUBRING3"
  | .ACELBREAK_01 => "ACELBREAK_01"
  | .SINPI2_01 => "SINPI2_01"

/-- The enumerator, if any, with a given identifier. -/
def TYPE.ofIdentifier (s : String) : Option TYPE :=
  TYPE.all.find? (fun k => k.identifier == s)

/-! ## Text export -/

/-- The decimal digits of `n`, most significant first, at most `fuel` of them. -/
def decimalDigits : Nat → Nat → List Char
  | 0, _ => []
  | fuel + 1, n =>
    if n < 10 then [Nat.digitChar n]
    else decimalDigits fuel (n / 10) ++ [Nat.digitChar (n % 10)]

/-- The decimal numeral that `strftime` prints for an integer. -/
def decimal (n : Int) : List Char :=
  if n < 0 then '-' :: decimalDigits (n.natAbs + 1) n.natAbs
  else decimalDigits (n.toNat + 1) n.toNat

/-- The numeral of a two-digit conversion of `strftime`: padded with a zero to
two digits. -/
def pad2 (n : Int) : List Char :=
  if 0 ≤ n ∧ n < 10 then '0' :: decimal n else decimal n

/-- The C library function `strftime`, for the conversions that `sand.cpp` uses
(`%Y`, `%m`, `%d`, `%H`, `%M`, `%S`); every other character is copied. -/
def strftime : List Char → tm → List Char
  | [], _ => []
  | '%' :: 'Y' :: fmt, t => decimal (t.tm_year + 1900) ++ strftime fmt t
  | '%' :: 'm' :: fmt, t => pad2 (t.tm_mon + 1) ++ strftime fmt t
  | '%' :: 'd' :: fmt, t => pad2 t.tm_mday ++ strftime fmt t
  | '%' :: 'H' :: fmt, t => pad2 t.tm_hour ++ strftime fmt t
  | '%' :: 'M' :: fmt, t => pad2 t.tm_min ++ strftime fmt t
  | '%' :: 'S' :: fmt, t => pad2 t.tm_sec ++ strftime fmt t
  | c :: fmt, t => c :: strftime fmt t

/-- Source: `std::string rtc::format( const std::string &fmt ) const`; `localtime`
is the C library function (it depends on the time zone of the host). -/
def rtc.format (localtime : Int → tm) (self : rtc) (fmt : List Char) : List Char :=
  let stored := time_t self.get
  let timeinfo := localtime stored
  strftime fmt timeinfo

/-- Source: `std::string rtc::str() const`, the format `"%Y-%m-%d %H:%M:%S"`. -/
def rtc.str (localtime : Int → tm) (self : rtc) : List Char :=
  self.format localtime
    ['%', 'Y', '-', '%', 'm', '-', '%', 'd', ' ', '%', 'H', ':', '%', 'M', ':', '%', 'S']

/-! ## Calendar of a host whose time zone is UTC -/

/-- Days from 1970-01-01 to the first day of month `m` (0 = January) of year `y`
in the proleptic Gregorian calendar. -/
def daysBeforeMonth (y m : Int) : Int :=
  let y1 := if m < 2 then y - 1 else y
  let era := y1 / 400
  let yoe := y1 - era * 400
  let mp := (m + 10) % 12
  let doy := (153 * mp + 2) / 5
  let doe := yoe * 365 + yoe / 4 - yoe / 100 + doy
  era * 146097 + doe - 719468

/-- The C library function `mktime` on a host whose time zone is UTC: fields
outside their usual range are carried over. -/
def mktimeUTC (t : tm) : Int :=
  let months := (t.tm_year + 1900) * 12 + t.tm_mon
  let days := daysBeforeMonth (months / 12) (months % 12) + (t.tm_mday - 1)
  days * 86400 + t.tm_hour * 3600 + t.tm_min * 60 + t.tm_sec

/-- The C library function `localtime` on a host whose time zone is UTC. -/
def localtimeUTC (time : Int) : tm :=
  let days := time / 86400
  let rem := time % 86400
  let z := days + 719468
  let era := z / 146097
  let doe := z - era * 146097
  let yoe := (doe - doe / 1460 + doe / 36524 - doe / 146096) / 365
  let doy := doe - (365 * yoe + yoe / 4 - yoe / 100)
  let mp := (5 * doy + 2) / 153
  let d := doy - (153 * mp + 2) / 5 + 1
  let m := if mp < 10 then mp + 3 else mp - 9
  let y := yoe + era * 400 + (if m ≤ 2 then 1 else 0)
  { tm_sec := rem % 60
    tm_min := rem / 60 % 60
    tm_hour := rem / 3600
    tm_mday := d
    tm_mon := m - 1
    tm_year := y - 1900
    tm_isdst := 0 }

/-- The C library function `localtime` on a host that keeps the zone UTC+1 until
the instant 7200 and sets its clocks back by one hour then: the wall-clock
hour from 02:00 to 03:00 of 1970-01-01 occurs twice. -/
def localtimeSetBack (time : Int) : tm :=
  if time < 7200 then { localtimeUTC (time + 3600) with tm_isdst := 1 }
  else localtimeUTC time

/-! ## Delimited text -/

/-- The delimiters of `rtc::str( import )`: colon, hyphen, slash and space. -/
def delimiters : List Char := [':', '-', '/', ' ']

/-- A delimited field that is a number: a non-empty run of decimal digits. -/
def numericField (field : List Char) : Bool :=
  !field.isEmpty && field.all Char.isDigit

/-- A non-empty run of delimiters. -/
def delimiterRun (sep : List Char) : Bool :=
  !sep.isEmpty && sep.all (fun c => decide (c ∈ delimiters))

/-- The text made of a first field followed by separators and fields in turn. -/
def delimited (first : List Char) (rest : List (List Char × List Char)) : List Char :=
  first ++ (rest.map (fun p => p.1 ++ p.2)).flatten

/-- The calendar fields that `rtc::str( import )` passes to `mktime` for six tokens. -/
def importedFields (token : List (List Char)) : tm :=
  { tm_year := as_int (token.getD 0 []) - 1900
    tm_mon := as_int (token.getD 1 []) - 1
    tm_mday := as_int (token.getD 2 [])
    tm_hour := as_int (token.getD 3 [])
    tm_min := as_int (token.getD 4 [])
    tm_sec := as_int (token.getD 5 [])
    tm_isdst := -1 }

/-- The calendar fields that `rtc::str()` can print and `rtc::str( import )` read
back: each within the range of `struct tm`, the year not negative and within `int`. -/
def representable (t : tm) : Bool :=
  decide (0 ≤ t.tm_year + 1900) && decide (t.tm_year + 1900 ≤ 2147483647) &&
  decide (0 ≤ t.tm_mon) && decide (t.tm_mon ≤ 11) &&
  decide (1 ≤ t.tm_mday) && decide (t.tm_mday ≤ 31) &&
  decide (0 ≤ t.tm_hour) && decide (t.tm_hour ≤ 23) &&
  decide (0 ≤ t.tm_min) && decide (t.tm_min ≤ 59) &&
  decide (0 ≤ t.tm_sec) && decide (t.tm_sec ≤ 60)

/-! ## Scenarios of the clock -/

/-- Seconds on the inner timer between the counter reading `start` and the
counter reading `now`: the value of `dt::s()` for a timer reset at `start`. -/
def timerSeconds (start now : timeval) : ℚ :=
  kSandTimerDiffCounter start now / 1000000.0

/-- A read of the clock, with the counter readings it obtains. -/
inductive Read
  | time_obj (now : timeval)
  | get
  | update (now₁ now₂ : timeval)
  deriving DecidableEq, Repr

/-- The value a read returns and the clock it leaves. -/
def rtc.read (self : rtc) : Read → ℚ × rtc
  | .time_obj now => (((self.time_obj now).1 : ℚ), (self.time_obj now).2)
  | .get => (self.get, self)
  | .update now₁ now₂ => self.update now₁ now₂

/-- The values returned by a sequence of reads, in order. -/
def rtc.reads (self : rtc) : List Read → List ℚ
  | [] => []
  | r :: rs => (self.read r).1 :: (self.read r).2.reads rs

/-- The calls `set( a ); pause(); resume(); update();` in sequence: `T0` is the
counter reading of `set`, `T2` the one of `resume`, `T3` and `T4` the ones of
`update`.  `pause()` reads no counter. -/
def pauseResumeUpdate (self : rtc) (a : ℚ) (T0 T2 T3 T4 : timeval) : rtc :=
  let self := self.set a T0
  let self := self.pause
  let self := (self.resume T2).2
  (self.update T3 T4).2

/-! ## Auxiliary facts -/

theorem mem_all (k : TYPE) : k ∈ TYPE.all := by
  cases k <;> simp [TYPE.all]

theorem find_val (E : TypeEnum) (k : TYPE) (l : List TYPE) (h : k ∈ l) :
    l.find? (fun j => E.val j == E.val k) = some k := by
  induction l with
  | nil => simp at h
  | cons a l ih =>
    by_cases hak : a = k
    · simp [List.find?, hak]
    · have hne : (E.val a == E.val k) = false := by
        simpa using fun h' => hak (E.inj h')
      have hk : k ∈ l := by
        rcases List.mem_cons.mp h with h' | h'
        · exact absurd h'.symm hak
        · exact h'
      simp [List.find?, hne, ih hk]

theorem classify_val (E : TypeEnum) (k : TYPE) : E.classify (E.val k) = some k :=
  find_val E k TYPE.all (mem_all k)

theorem classify_none (E : TypeEnum) (n : Int) (h : ∀ k, E.val k ≠ n) :
    E.classify n = none := by
  simp only [TypeEnum.classify, List.find?_eq_none]
  intro k _
  simpa using h k

theorem tween_nonpos (E : TypeEnum) (m : Libm) (n : Int) (x : ℚ) (h : x ≤ 0) :
    tween E m n x = 0 := by
  simp [tween, h]

theorem tween_one_le (E : TypeEnum) (m : Libm) (n : Int) (x : ℚ) (h : 1 ≤ x) :
    tween E m n x = 1 := by
  have h0 : ¬ x ≤ 0 := by linarith
  simp [tween, h, h0]

theorem tween_interior (E : TypeEnum) (m : Libm) (n : Int) (x : ℚ) (h0 : 0 < x) (h1 : x < 1) :
    tween E m n x = tweenCase m (E.classify n) x 1 := by
  have h0' : ¬ x ≤ 0 := by linarith
  have h1' : ¬ 1 ≤ x := by linarith
  simp [tween, h0', h1']

theorem foldl_push {α β : Type} (g : α → β) (l : List α) (init : List β) :
    l.foldl (fun acc i => acc ++ [g i]) init = init ++ l.map g := by
  induction l generalizing init with
  | nil => simp
  | cons a l ih => simp [ih]

theorem fillLut_nil (E : TypeEnum) (m : Libm) (type : TYPE) :
    fillLut E m type [] = specTable E m type := by
  unfold fillLut specTable
  rw [foldl_push]
  simp [SLOTS]
  intro a _
  norm_num

theorem specTable_length (E : TypeEnum) (m : Libm) (type : TYPE) :
    (specTable E m type).length = 256 := by
  simp only [specTable, SLOTS, List.length_map, List.length_range]

theorem specTable_get (E : TypeEnum) (m : Libm) (type : TYPE) (i : Nat) (h : i < 256) :
    (specTable E m type)[i]? = some (tween E m (E.val type) ((i : ℚ) / 255)) := by
  simp only [specTable, SLOTS, List.getElem?_map, List.getElem?_range h, Option.map_some']

theorem with_table (E : TypeEnum) (m : Libm) (type : TYPE) (lut : List ℚ)
    (h : lut = [] ∨ lut = specTable E m type) (x : ℚ) :
    (with_ E m type lut x).2 = specTable E m type := by
  rcases h with rfl | rfl
  · simp [with_, fillLut_nil]
  · have : (specTable E m type).isEmpty = false := by
      cases hs : specTable E m type with
      | nil => have := specTable_length E m type; simp [hs] at this
      | cons a l => rfl
    simp [with_, this]

theorem lut_cases (E : TypeEnum) (m : Libm) (type : TYPE) (lut : List ℚ)
    (h : LutReachable (with_ E m type) lut) : lut = [] ∨ lut = specTable E m type := by
  induction h with
  | start => exact Or.inl rfl
  | call x _ ih => exact Or.inr (with_table E m type _ ih x)

theorem memoized_with (E : TypeEnum) (m : Libm) :
    ∀ p ∈ memoized E m, p.1 = with_ E m p.2 := by
  simp only [memoized, List.forall_mem_cons]
  refine ⟨?_, ?_, ?_, ?_, ?_, ?_, ?_, ?_, ?_, ?_, ?_, ?_, ?_, ?_, ?_, ?_, ?_, ?_, ?_, ?_,
    ?_, ?_, ?_, ?_, ?_, ?_, ?_, ?_, ?_, ?_, ?_, ?_, ?_, ?_, ?_, ?_, ?_, ?_⟩
  all_goals first | rfl | (intro x hx; cases hx)

theorem with_fst (E : TypeEnum) (m : Libm) (type : TYPE) (lut : List ℚ) (x : ℚ) :
    (with_ E m type lut x).1 =
      if x < 0 then some 0
      else if 1 ≤ x then some 1
      else if 0 ≤ toInt (x * 255) then
        ((with_ E m type lut x).2)[(toInt (x * 255)).toNat]?
      else none := by
  have h : ((SLOTS : ℚ) - 1) = 255 := by norm_num [SLOTS]
  simp only [with_, h, ge_iff_le]

theorem toInt_of_nonneg (x : ℚ) (h : 0 ≤ x) : toInt x = ⌊x⌋ := by
  simp [toInt, h]

/-- Value of a memoized function whose table is empty or already filled. -/
theorem with_value (E : TypeEnum) (m : Libm) (type : TYPE) (lut : List ℚ)
    (h : lut = [] ∨ lut = specTable E m type) (x : ℚ) :
    (with_ E m type lut x).1 =
      if x < 0 then some 0
      else if 1 ≤ x then some 1
      else some (tween E m (E.val type) (((⌊x * 255⌋.toNat : Nat) : ℚ) / 255)) := by
  rw [with_fst, with_table E m type lut h x]
  by_cases h0 : x < 0
  · simp [h0]
  by_cases h1 : 1 ≤ x
  · simp [h0, h1]
  have hx0 : 0 ≤ x := not_lt.mp h0
  have hx1 : x < 1 := not_le.mp h1
  have hnn : (0 : ℚ) ≤ x * 255 := by positivity
  have hfl : (0 : Int) ≤ ⌊x * 255⌋ := Int.floor_nonneg.mpr hnn
  have hlt : ⌊x * 255⌋ < 255 := by
    rw [Int.floor_lt]
    push_cast
    linarith
  have hidx : ⌊x * 255⌋.toNat < 256 := by omega
  simp only [h0, h1, if_false, toInt_of_nonneg _ hnn, hfl, if_true]
  exact specTable_get E m type _ hidx

theorem specIndex_bounds (x : ℚ) : 0 ≤ specIndex x ∧ specIndex x ≤ 255 := by
  unfold specIndex
  have h0 : (0 : ℚ) ≤ max 0 (min x 1) := le_max_left _ _
  have h1 : max 0 (min x 1) ≤ 1 := max_le (by norm_num) (min_le_right _ _)
  constructor
  · exact Int.floor_nonneg.mpr (by positivity)
  · have : max 0 (min x 1) * 255 < ((256 : Int) : ℚ) := by
      push_cast
      linarith
    have := Int.floor_lt.mpr this
    omega

theorem specIndex_neg (x : ℚ) (h : x < 0) : specIndex x = 0 := by
  have : max 0 (min x 1) = 0 := by
    rw [max_eq_left]
    exact le_trans (min_le_left _ _) h.le
  simp [specIndex, this]

theorem specIndex_ge (x : ℚ) (h : 1 ≤ x) : specIndex x = 255 := by
  have : max 0 (min x 1) = 1 := by
    rw [min_eq_right h, max_eq_right]
    norm_num
  simp [specIndex, this]

theorem specIndex_mid (x : ℚ) (h0 : 0 ≤ x) (h1 : x ≤ 1) : specIndex x = ⌊x * 255⌋ := by
  have : max 0 (min x 1) = x := by
    rw [min_eq_left h1, max_eq_right h0]
  simp [specIndex, this]

/-- Value of a memoized function, read off the specification's table. -/
theorem with_spec (E : TypeEnum) (m : Libm) (type : TYPE) (lut : List ℚ)
    (h : lut = [] ∨ lut = specTable E m type) (x : ℚ) :
    (with_ E m type lut x).1 =
      some (tween E m (E.val type) (((specIndex x).toNat : ℚ) / 255)) := by
  rw [with_value E m type lut h x]
  by_cases h0 : x < 0
  · simp [h0, specIndex_neg x h0, tween_nonpos]
  by_cases h1 : 1 ≤ x
  · rw [specIndex_ge x h1]
    have e : (((255 : Int).toNat : Nat) : ℚ) / 255 = 1 := by
      rw [show (255 : Int).toNat = 255 from rfl]
      norm_num
    simp only [h0, h1, if_false, if_true, e]
    rw [tween_one_le E m _ 1 le_rfl]
  · simp only [h0, h1, if_false]
    rw [specIndex_mid x (not_lt.mp h0) (not_le.mp h1).le]

theorem with_congr (E : TypeEnum) (m : Libm) (type : TYPE) (lut : List ℚ)
    (h : lut = [] ∨ lut = specTable E m type) (x y : ℚ)
    (hxy : ⌊x * 255⌋ = ⌊y * 255⌋) :
    (with_ E m type lut x).1 = (with_ E m type lut y).1 := by
  have key : ∀ z : ℚ, (z < 0 ↔ ⌊z * 255⌋ < 0) ∧ (1 ≤ z ↔ 255 ≤ ⌊z * 255⌋) := by
    intro z
    constructor
    · rw [Int.floor_lt]
      push_cast
      constructor <;> intro hz <;> linarith
    · rw [Int.le_floor]
      push_cast
      constructor <;> intro hz <;> linarith
  rw [with_value E m type lut h x, with_value E m type lut h y]
  have hx := key x
  have hy := key y
  rw [hxy] at hx
  have e0 : (x < 0) = (y < 0) := propext (hx.1.trans hy.1.symm)
  have e1 : (1 ≤ x) = (1 ≤ y) := propext (hx.2.trans hy.2.symm)
  simp only [e0, e1, hxy]

/-! ## Tween catalogue and memoization: the claims -/

/-- C1: every curve evaluator - the dispatcher `tween` for every discriminant and
every memoized named evaluator, whatever the state of its table - returns exactly
0 for every phase `≤ 0` and exactly 1 for every phase `≥ 1`. -/
theorem C1_boundary_values (E : TypeEnum) (m : Libm) :
    (∀ (tweener_type : Int) (phase : ℚ),
      (phase ≤ 0 → tween E m tweener_type phase = 0) ∧
      (1 ≤ phase → tween E m tweener_type phase = 1)) ∧
    (∀ p ∈ memoized E m, ∀ lut : List ℚ, LutReachable p.1 lut → ∀ phase : ℚ,
      (phase ≤ 0 → (p.1 lut phase).1 = some 0) ∧
      (1 ≤ phase → (p.1 lut phase).1 = some 1)) := by
  refine ⟨fun n x => ⟨tween_nonpos E m n x, tween_one_le E m n x⟩, ?_⟩
  intro p hp lut hlut x
  have hw := memoized_with E m p hp
  rw [hw] at hlut ⊢
  have hl := lut_cases E m p.2 lut hlut
  rw [with_value E m p.2 lut hl x]
  constructor
  · intro hx
    by_cases h0 : x < 0
    · simp [h0]
    · have hx0 : x = 0 := le_antisymm hx (not_lt.mp h0)
      subst hx0
      simp [tween_nonpos]
  · intro hx
    have h0 : ¬ x < 0 := by linarith
    simp [h0, hx]

/-- C1 on concrete inputs: `tween` at phases -1 and 3, `quadin` at phases 0 and 1. -/
theorem C1_boundary_values_witness :
    tween sampleEnum sampleLibm 2 (-1) = 0 ∧ tween sampleEnum sampleLibm 2 3 = 1 ∧
    (quadin sampleEnum sampleLibm [] 0).1 = some 0 ∧
    (quadin sampleEnum sampleLibm [] 1).1 = some 1 :=
  ⟨((C1_boundary_values sampleEnum sampleLibm).1 2 (-1)).1 (by norm_num),
   ((C1_boundary_values sampleEnum sampleLibm).1 2 3).2 (by norm_num),
   ((C1_boundary_values sampleEnum sampleLibm).2 (quadin sampleEnum sampleLibm, .QUADIN_01)
      (List.mem_cons_self _ _) [] .start 0).1 le_rfl,
   ((C1_boundary_values sampleEnum sampleLibm).2 (quadin sampleEnum sampleLibm, .QUADIN_01)
      (List.mem_cons_self _ _) [] .start 1).2 le_rfl⟩

/-- C2: for the quadratic, cubic, quartic and quintic families and every phase
in [0,1], the "in" curve of the dispatcher equals one minus the "out" curve at
the mirrored phase, exactly (arithmetic is exact in this model). -/
theorem C2_in_out_symmetry (E : TypeEnum) (m : Libm) (phase : ℚ)
    (h0 : 0 ≤ phase) (h1 : phase ≤ 1) :
    tween E m (E.val .QUADIN_01) phase = 1 - tween E m (E.val .QUADOUT_01) (1 - phase) ∧
    tween E m (E.val .CUBICIN_01) phase = 1 - tween E m (E.val .CUBICOUT_01) (1 - phase) ∧
    tween E m (E.val .QUARTIN_01) phase = 1 - tween E m (E.val .QUARTOUT_01) (1 - phase) ∧
    tween E m (E.val .QUINTIN_01) phase = 1 - tween E m (E.val .QUINTOUT_01) (1 - phase) := by
  rcases eq_or_lt_of_le h0 with rfl | hpos
  · simp [tween_nonpos, tween_one_le]
  rcases eq_or_lt_of_le h1 with rfl | hlt
  · simp [tween_nonpos, tween_one_le]
  have a0 : 0 < 1 - phase := by linarith
  have a1 : 1 - phase < 1 := by linarith
  simp only [tween_interior E m _ phase hpos hlt, tween_interior E m _ (1 - phase) a0 a1,
    classify_val, tweenCase]
  refine ⟨?_, ?_, ?_, ?_⟩ <;> ring

/-- C2 at phase 1/4. -/
theorem C2_in_out_symmetry_witness :
    tween sampleEnum sampleLibm (sampleEnum.val .QUADIN_01) (1 / 4)
        = 1 - tween sampleEnum sampleLibm (sampleEnum.val .QUADOUT_01) (1 - 1 / 4) ∧
    tween sampleEnum sampleLibm (sampleEnum.val .CUBICIN_01) (1 / 4)
        = 1 - tween sampleEnum sampleLibm (sampleEnum.val .CUBICOUT_01) (1 - 1 / 4) ∧
    tween sampleEnum sampleLibm (sampleEnum.val .QUARTIN_01) (1 / 4)
        = 1 - tween sampleEnum sampleLibm (sampleEnum.val .QUARTOUT_01) (1 - 1 / 4) ∧
    tween sampleEnum sampleLibm (sampleEnum.val .QUINTIN_01) (1 / 4)
        = 1 - tween sampleEnum sampleLibm (sampleEnum.val .QUINTOUT_01) (1 - 1 / 4) :=
  C2_in_out_symmetry sampleEnum sampleLibm (1 / 4) (by norm_num) (by norm_num)

/-- C3: for every memoized evaluator, whatever the state of its table, and every
integer `k` in [0,255], the memoized value at phase `k/255` is the value of the
direct evaluator `tween` for the curve of that evaluator at `k/255`. -/
theorem C3_memoized_at_samples (E : TypeEnum) (m : Libm) :
    ∀ p ∈ memoized E m, ∀ lut : List ℚ, LutReachable p.1 lut → ∀ k : Nat, k ≤ 255 →
      (p.1 lut ((k : ℚ) / 255)).1 = some (tween E m (E.val p.2) ((k : ℚ) / 255)) := by
  intro p hp lut hlut k hk
  have hw := memoized_with E m p hp
  rw [hw] at hlut ⊢
  have hl := lut_cases E m p.2 lut hlut
  rw [with_value E m p.2 lut hl]
  have hk0 : ¬ ((k : ℚ) / 255 < 0) := by
    have : (0 : ℚ) ≤ (k : ℚ) / 255 := by positivity
    linarith
  rcases Nat.eq_or_lt_of_le hk with rfl | hlt
  · have e : ((255 : Nat) : ℚ) / 255 = 1 := by norm_num
    simp [e, tween_one_le]
  · have hk1 : ¬ (1 ≤ (k : ℚ) / 255) := by
      rw [not_le, div_lt_one (by norm_num)]
      exact_mod_cast hlt
    have e : (k : ℚ) / 255 * 255 = ((k : Int) : ℚ) := by
      push_cast
      field_simp
    simp only [hk0, hk1, if_false, e, Int.floor_intCast, Int.toNat_ofNat]

/-- C3 for `quadin` on its first call, at `k = 128`. -/
theorem C3_memoized_at_samples_witness :
    (quadin sampleEnum sampleLibm [] (((128 : Nat) : ℚ) / 255)).1
      = some (tween sampleEnum sampleLibm (sampleEnum.val .QUADIN_01) (((128 : Nat) : ℚ) / 255)) :=
  C3_memoized_at_samples sampleEnum sampleLibm (quadin sampleEnum sampleLibm, .QUADIN_01)
    (List.mem_cons_self _ _) [] .start 128 (by norm_num)

/-- C4: for every memoized evaluator, whatever the state of its table, and every
phase: after the call the table is the 256-entry table whose entry `i` is
`tween(type, i/255)`; the result is the entry at index
`floor(clamp(phase,0,1) * 255)`, which lies in 0..255; nothing is interpolated,
so two phases with the same `floor(phase * 255)` give the same result. -/
theorem C4_nearest_lower_sample (E : TypeEnum) (m : Libm) :
    ∀ p ∈ memoized E m, ∀ lut : List ℚ, LutReachable p.1 lut → ∀ phase : ℚ,
      (p.1 lut phase).2 = specTable E m p.2 ∧
      (specTable E m p.2).length = 256 ∧
      (∀ i : Nat, i < 256 →
        (specTable E m p.2)[i]? = some (tween E m (E.val p.2) ((i : ℚ) / 255))) ∧
      0 ≤ specIndex phase ∧ specIndex phase ≤ 255 ∧
      (p.1 lut phase).1 = (specTable E m p.2)[(specIndex phase).toNat]? ∧
      (∀ phase' : ℚ, ⌊phase * 255⌋ = ⌊phase' * 255⌋ →
        (p.1 lut phase).1 = (p.1 lut phase').1) := by
  intro p hp lut hlut x
  have hw := memoized_with E m p hp
  rw [hw] at hlut ⊢
  have hl := lut_cases E m p.2 lut hlut
  have hb := specIndex_bounds x
  refine ⟨with_table E m p.2 lut hl x, specTable_length E m p.2,
    fun i hi => specTable_get E m p.2 i hi, hb.1, hb.2, ?_,
    fun y hxy => with_congr E m p.2 lut hl x y hxy⟩
  rw [with_spec E m p.2 lut hl x, specTable_get E m p.2 _ (by omega)]

/-- C4 for `quadin` with its table already filled, at phases 1/2 and 127/255,
which share the index 127. -/
theorem C4_nearest_lower_sample_witness :
    (quadin sampleEnum sampleLibm (quadin sampleEnum sampleLibm [] 0).2 (1 / 2)).1
      = (quadin sampleEnum sampleLibm (quadin sampleEnum sampleLibm [] 0).2 (127 / 255)).1 :=
  ((C4_nearest_lower_sample sampleEnum sampleLibm (quadin sampleEnum sampleLibm, .QUADIN_01)
    (List.mem_cons_self _ _) _ (.call 0 .start) (1 / 2)).2.2.2.2.2.2) (127 / 255)
    (by norm_num [Int.floor_eq_iff])

/-- C5: for every phase in [0,1], `tween(LINEAR_01, phase)` is `phase`, and so is
`linear(phase)`. -/
theorem C5_linear_identity (E : TypeEnum) (m : Libm) (phase : ℚ)
    (h0 : 0 ≤ phase) (h1 : phase ≤ 1) :
    tween E m (E.val .LINEAR_01) phase = phase ∧ linear phase = phase := by
  refine ⟨?_, rfl⟩
  rcases eq_or_lt_of_le h0 with rfl | hpos
  · simp [tween_nonpos]
  rcases eq_or_lt_of_le h1 with rfl | hlt
  · simp [tween_one_le]
  simp [tween_interior E m _ phase hpos hlt, classify_val, tweenCase]

/-- C5 at phase 3/8. -/
theorem C5_linear_identity_witness :
    tween sampleEnum sampleLibm (sampleEnum.val .LINEAR_01) (3 / 8) = 3 / 8 ∧
      linear (3 / 8) = 3 / 8 :=
  C5_linear_identity sampleEnum sampleLibm (3 / 8) (by norm_num) (by norm_num)

/-- C6 as stated fails: the discriminant -1 is no enumerator of the sample
numbering, and `tween` returns 1, not 0, for it at phase 1. -/
theorem C6_default_counterexample :
    (∀ k : TYPE, sampleEnum.val k ≠ -1) ∧ tween sampleEnum sampleLibm (-1) 1 = 1 ∧
    ¬ (∀ (E : TypeEnum) (m : Libm) (n : Int) (phase : ℚ),
        (∀ k : TYPE, E.val k ≠ n) → tween E m n phase = 0) := by
  have hout : ∀ k : TYPE, sampleEnum.val k ≠ -1 := by
    intro k
    show ((k.toCtorIdx : Nat) : Int) ≠ -1
    omega
  refine ⟨hout, tween_one_le _ _ _ 1 le_rfl, ?_⟩
  intro h
  have h1 := h sampleEnum sampleLibm (-1) 1 hout
  rw [tween_one_le _ _ _ 1 le_rfl] at h1
  exact one_ne_zero h1

/-- C6, amended: for a discriminant outside the enumeration, `tween` returns the
default 0 for every phase below 1 and, like every curve, 1 for every phase from
1 on. -/
theorem C6_default_amended (E : TypeEnum) (m : Libm) (n : Int) (phase : ℚ)
    (hn : ∀ k : TYPE, E.val k ≠ n) :
    (phase < 1 → tween E m n phase = 0) ∧ (1 ≤ phase → tween E m n phase = 1) := by
  refine ⟨fun h => ?_, tween_one_le E m n phase⟩
  rcases le_or_lt phase 0 with h0 | h0
  · exact tween_nonpos E m n phase h0
  · rw [tween_interior E m n phase h0 h, classify_none E n hn]
    rfl

/-- C6, amended, for the discriminant -1 of the sample numbering at phases 1/2 and 2. -/
theorem C6_default_amended_witness :
    tween sampleEnum sampleLibm (-1) (1 / 2) = 0 ∧ tween sampleEnum sampleLibm (-1) 2 = 1 :=
  ⟨(C6_default_amended sampleEnum sampleLibm (-1) (1 / 2) (by
      intro k
      show ((k.toCtorIdx : Nat) : Int) ≠ -1
      omega)).1 (by norm_num),
   (C6_default_amended sampleEnum sampleLibm (-1) 2 (by
      intro k
      show ((k.toCtorIdx : Nat) : Int) ≠ -1
      omega)).2 (by norm_num)⟩

/-! ## Logical clock: auxiliary facts -/

theorem toInt_intCast (n : Int) : toInt (n : ℚ) = n := by
  unfold toInt
  split <;> simp

theorem set_factor (c : rtc) (t : ℚ) (now : timeval) : (c.set t now).factor = c.factor := rfl

theorem str_import_factor_pos (mktime : tm → Int) (c : rtc) (s : List Char) (now : timeval)
    (h : 0 < c.factor) : 0 < (c.str_import mktime s now).factor := by
  unfold rtc.str_import
  by_cases hl : (tokenize s [':', '-', '/', ' ']).length < 6
  · simp only [hl, if_true, set_factor]
    exact h
  · simp only [hl, if_false, set_factor]
    norm_num

theorem reachable_factor_pos (mktime : tm → Int) (c : rtc) (h : Reachable mktime c) :
    0 < c.factor := by
  induction h with
  | ctor time0 now => norm_num [rtc.ctor, rtc.set]
  | ctor_import s now =>
    unfold rtc.ctor_import
    exact str_import_factor_pos mktime _ s now (by norm_num)
  | time_obj now _ ih => simpa [rtc.time_obj] using ih
  | elapsed now _ ih => simpa [rtc.elapsed] using ih
  | reset now _ ih => simpa [rtc.reset, rtc.set] using ih
  | set t now _ ih => simpa [rtc.set] using ih
  | shift f _ hs ih =>
    unfold rtc.shift at hs
    split at hs
    · rename_i hf
      cases hs
      norm_num at hf
      exact hf
    · cases hs
  | pause _ ih => simpa [rtc.pause] using ih
  | resume now _ ih => simpa [rtc.resume, rtc.time_obj] using ih
  | update now₁ now₂ _ ih =>
    unfold rtc.update
    split
    · exact ih
    · simpa [rtc.set, rtc.elapsed] using ih
  | str_import s now _ ih => exact str_import_factor_pos mktime _ s now ih

/-- C7: `rtc::shift(f)` fails (the assertion aborts) exactly when `f ≤ 0`, in
particular for 0 and -1, and the clock is then as before; for `f > 0` it
returns with the speed factor set to `f` and anchor, held flag and timer
unchanged; the speed factor is strictly positive in every reachable state. -/
theorem C7_shift_rejects_nonpositive :
    (∀ (c : rtc) (f : ℚ), (∃ c1, c.shift f = .aborted c1) ↔ f ≤ 0) ∧
    (∀ (c : rtc) (f : ℚ), f ≤ 0 → c.shift f = .aborted c) ∧
    (∀ c : rtc, c.shift 0 = .aborted c ∧ c.shift (-1) = .aborted c) ∧
    (∀ (c : rtc) (f : ℚ), 0 < f →
      c.shift f = .returned { held := c.held, creation := c.creation, dt := c.dt, factor := f }) ∧
    (∀ (mktime : tm → Int) (c : rtc), Reachable mktime c → 0 < c.factor) := by
  have hab : ∀ (c : rtc) (f : ℚ), f ≤ 0 → c.shift f = .aborted c := by
    intro c f hf
    have : ¬ (f > 0.0) := by
      norm_num
      exact hf
    simp [rtc.shift, this]
  have hret : ∀ (c : rtc) (f : ℚ), 0 < f →
      c.shift f = .returned { held := c.held, creation := c.creation, dt := c.dt, factor := f } := by
    intro c f hf
    have : f > 0.0 := by
      norm_num
      exact hf
    simp [rtc.shift, this]
  refine ⟨?_, hab, fun c => ⟨hab c 0 le_rfl, hab c (-1) (by norm_num)⟩, hret,
    reachable_factor_pos⟩
  intro c f
  constructor
  · rintro ⟨c1, h1⟩
    by_contra hf
    rw [hret c f (not_le.mp hf)] at h1
    cases h1
  · intro hf
    exact ⟨c, hab c f hf⟩

/-- C7 on a clock constructed at wall time 1600000000: `shift(2)` returns with
factor 2, `shift(0)` aborts, and the factor of the constructed clock is positive. -/
theorem C7_shift_rejects_nonpositive_witness :
    (rtc.ctor 1600000000 ⟨0, 0⟩).shift 2
      = .returned { held := (rtc.ctor 1600000000 ⟨0, 0⟩).held,
                    creation := (rtc.ctor 1600000000 ⟨0, 0⟩).creation,
                    dt := (rtc.ctor 1600000000 ⟨0, 0⟩).dt, factor := 2 } ∧
    (rtc.ctor 1600000000 ⟨0, 0⟩).shift 0 = .aborted (rtc.ctor 1600000000 ⟨0, 0⟩) ∧
    0 < (rtc.ctor 1600000000 ⟨0, 0⟩).factor :=
  ⟨C7_shift_rejects_nonpositive.2.2.2.1 _ 2 (by norm_num),
   C7_shift_rejects_nonpositive.2.1 _ 0 le_rfl,
   C7_shift_rejects_nonpositive.2.2.2.2 (fun _ => 0) _ (.ctor 1600000000 ⟨0, 0⟩)⟩

theorem dt_s_eq (d : dt) (now : timeval) : (d.s now).1 = timerSeconds d.startCount now := rfl

theorem toInt_floor (x : ℚ) (h : 0 ≤ x) : time_t x = ⌊x⌋ := toInt_of_nonneg x h

theorem update_held (c : rtc) (now₁ now₂ : timeval) (h : c.held = true) :
    c.update now₁ now₂ = ((c.creation : ℚ), c) := by
  simp [rtc.update, h]

theorem time_t_add_cast (a b : Int) : time_t ((a : ℚ) + (b : ℚ)) = a + b := by
  have h := toInt_intCast (a + b)
  push_cast at h
  exact h

theorem update_running (c : rtc) (now₁ now₂ : timeval) (h : c.held = false) :
    c.update now₁ now₂ =
      (((c.creation + time_t (c.factor * timerSeconds c.dt.startCount now₁) : Int) : ℚ),
       { held := false
         creation := c.creation + time_t (c.factor * timerSeconds c.dt.startCount now₁)
         dt := { startCount := now₂, endCount := ⟨0, 0⟩ }
         factor := c.factor }) := by
  unfold timerSeconds
  simp only [rtc.update, h, rtc.elapsed, rtc.set, dt.reset, dt.s, dt.us, time_t_add_cast,
    Bool.false_eq_true, if_false]

theorem ctor_eq (time0 : Int) (T : timeval) :
    rtc.ctor time0 T = { held := false, creation := time0, dt := ⟨T, ⟨0, 0⟩⟩, factor := 1 } := by
  have h : time_t (time0 : ℚ) = time0 := toInt_intCast time0
  simp only [rtc.ctor, rtc.set, dt.reset, h]
  norm_num

theorem resume_state (c : rtc) (now : timeval) :
    (c.resume now).2 =
      { held := false, creation := c.creation, dt := ⟨c.dt.startCount, now⟩,
        factor := c.factor } := rfl

/-- C8: a paused clock returns its anchor from `update()` and stays as it is; a
running clock (speed factor positive, timer reading not negative) gets the
anchor `old anchor + floor(factor * timer seconds)`, its timer restarts at zero
and the new anchor is returned.  A clock anchored at 1600000000 and paused at
once returns 1600000000; after `resume()` and 10 timer seconds at factor 1 it
returns 1600000010. -/
theorem C8_update_folds (c : rtc) (now₁ now₂ : timeval) :
    (c.held = true → c.update now₁ now₂ = ((c.creation : ℚ), c)) ∧
    (c.held = false → 0 < c.factor → 0 ≤ (c.dt.s now₁).1 →
      (c.update now₁ now₂).2.creation = c.creation + ⌊c.factor * (c.dt.s now₁).1⌋ ∧
      (c.update now₁ now₂).1 = (((c.update now₁ now₂).2.creation : Int) : ℚ) ∧
      (c.update now₁ now₂).2.dt.startCount = now₂ ∧
      ((c.update now₁ now₂).2.dt.s now₂).1 = 0 ∧
      (c.update now₁ now₂).2.held = false ∧
      (c.update now₁ now₂).2.factor = c.factor) ∧
    (∀ (T T1 T2 T3 : timeval),
      ((rtc.ctor 1600000000 T).pause.update T1 T1).1 = 1600000000 ∧
      (((((rtc.ctor 1600000000 T).pause.update T1 T1).2.resume T2).2.update
          ⟨T.tv_sec + 10, T.tv_usec⟩ T3).1 = 1600000010)) := by
  refine ⟨update_held c now₁ now₂, ?_, ?_⟩
  · intro hh hf hs
    rw [update_running c now₁ now₂ hh, dt_s_eq]
    rw [dt_s_eq] at hs
    rw [toInt_floor _ (mul_nonneg hf.le hs)]
    refine ⟨rfl, rfl, rfl, ?_, rfl, rfl⟩
    simp [dt.s, dt.us, kSandTimerDiffCounter]
  · intro T T1 T2 T3
    have h10 : timerSeconds T ⟨T.tv_sec + 10, T.tv_usec⟩ = 10 := by
      simp only [timerSeconds, kSandTimerDiffCounter]
      push_cast
      ring_nf
    have h1 : (rtc.ctor 1600000000 T).pause.update T1 T1
        = (1600000000, (rtc.ctor 1600000000 T).pause) := by
      rw [update_held _ _ _ rfl, ctor_eq]
      simp [rtc.pause]
    rw [h1, resume_state, update_running _ _ _ rfl, ctor_eq]
    simp only [rtc.pause, h10]
    have : time_t ((1 : ℚ) * 10) = 10 := by
      rw [toInt_floor _ (by norm_num)]
      norm_num
    rw [this]
    norm_num

/-- C8 on a running clock anchored at 100 with factor 2, 3.5 timer seconds after
its last reset, and on the same clock paused. -/
theorem C8_update_folds_witness :
    ((rtc.mk false 100 ⟨⟨0, 0⟩, ⟨0, 0⟩⟩ 2).update ⟨3, 500000⟩ ⟨3, 500001⟩).2.creation = 107 ∧
    (rtc.mk true 100 ⟨⟨0, 0⟩, ⟨0, 0⟩⟩ 2).update ⟨3, 500000⟩ ⟨3, 500001⟩
      = (100, rtc.mk true 100 ⟨⟨0, 0⟩, ⟨0, 0⟩⟩ 2) := by
  constructor
  · have h := ((C8_update_folds (rtc.mk false 100 ⟨⟨0, 0⟩, ⟨0, 0⟩⟩ 2) ⟨3, 500000⟩
      ⟨3, 500001⟩).2.1 rfl (by norm_num)
      (by norm_num [dt.s, dt.us, kSandTimerDiffCounter])).1
    rw [h]
    norm_num [dt.s, dt.us, kSandTimerDiffCounter, Int.floor_eq_iff]
  · have h := (C8_update_folds (rtc.mk true 100 ⟨⟨0, 0⟩, ⟨0, 0⟩⟩ 2) ⟨3, 500000⟩
      ⟨3, 500001⟩).1 rfl
    rw [h]
    norm_num

/-- The value that a read of a paused clock returns, from the anchor, the speed
factor and the start of the timer. -/
theorem read_held (c : rtc) (h : c.held = true) (r : Read) :
    (c.read r).1 =
      (match r with
        | .time_obj now =>
            ((c.creation + time_t (c.factor * timerSeconds c.dt.startCount now) : Int) : ℚ)
        | .get => (c.creation : ℚ)
        | .update _ _ => (c.creation : ℚ)) ∧
    (c.read r).2.held = true ∧ (c.read r).2.creation = c.creation ∧
    (c.read r).2.factor = c.factor ∧ (c.read r).2.dt.startCount = c.dt.startCount := by
  cases r with
  | time_obj now => exact ⟨rfl, h, rfl, rfl, rfl⟩
  | get => exact ⟨rfl, h, rfl, rfl, rfl⟩
  | update now₁ now₂ =>
    have e : c.read (.update now₁ now₂) = ((c.creation : ℚ), c) := update_held c now₁ now₂ h
    rw [e]
    exact ⟨rfl, h, rfl, rfl, rfl⟩

theorem reads_held (c : rtc) (h : c.held = true) (rs : List Read) :
    c.reads rs = rs.map (fun r => match r with
        | .time_obj now =>
            ((c.creation + time_t (c.factor * timerSeconds c.dt.startCount now) : Int) : ℚ)
        | .get => (c.creation : ℚ)
        | .update _ _ => (c.creation : ℚ)) := by
  induction rs generalizing c with
  | nil => rfl
  | cons r rs ih =>
    obtain ⟨hv, hh, hc, hf, hs⟩ := read_held c h r
    simp only [rtc.reads, List.map_cons, ih _ hh, hv, hc, hf, hs]

/-- C9 as stated fails: a clock created at instant 0 and paused returns 0 from
`time_obj()` at once and 5 from `time_obj()` five timer seconds later. -/
theorem C9_paused_reads_counterexample :
    (rtc.ctor 0 ⟨0, 0⟩).pause.reads [.time_obj ⟨0, 0⟩, .time_obj ⟨5, 0⟩] = [0, 5] ∧
    ¬ (∀ (c : rtc) (rs : List Read),
        (∀ r ∈ rs, ∃ now, r = .time_obj now ∨ r = .get) →
        ∀ v ∈ c.pause.reads rs, ∀ w ∈ c.pause.reads rs, v = w) := by
  have h : (rtc.ctor 0 ⟨0, 0⟩).pause.reads [.time_obj ⟨0, 0⟩, .time_obj ⟨5, 0⟩] = [0, 5] := by
    rw [reads_held _ rfl, ctor_eq]
    have e0 : time_t ((1 : ℚ) * timerSeconds ⟨0, 0⟩ ⟨0, 0⟩) = 0 := by
      norm_num [timerSeconds, kSandTimerDiffCounter, time_t, toInt]
    have e5 : time_t ((1 : ℚ) * timerSeconds ⟨0, 0⟩ ⟨5, 0⟩) = 5 := by
      norm_num [timerSeconds, kSandTimerDiffCounter, time_t, toInt, Int.floor_eq_iff]
    simp only [rtc.pause, List.map_cons, List.map_nil, e0, e5]
    norm_num
  refine ⟨h, fun hall => ?_⟩
  have h05 := hall (rtc.ctor 0 ⟨0, 0⟩) [.time_obj ⟨0, 0⟩, .time_obj ⟨5, 0⟩]
    (by
      intro r hr
      simp only [List.mem_cons, List.mem_singleton, List.not_mem_nil, or_false] at hr
      rcases hr with rfl | rfl
      · exact ⟨⟨0, 0⟩, Or.inl rfl⟩
      · exact ⟨⟨5, 0⟩, Or.inl rfl⟩)
    0 (by rw [h]; simp) 5 (by rw [h]; simp)
  norm_num at h05

/-- C9, amended: after `pause()`, in any sequence of reads, with any counter
readings, every `get()` and every `update()` returns the same value, the anchor;
`time_obj()` is not frozen: it returns the anchor plus the truncated scaled timer
seconds of its own counter reading. -/
theorem C9_paused_reads_amended (c : rtc) (rs : List Read) :
    c.pause.reads rs = rs.map (fun r => match r with
        | .time_obj now =>
            ((c.creation + time_t (c.factor * timerSeconds c.dt.startCount now) : Int) : ℚ)
        | .get => (c.creation : ℚ)
        | .update _ _ => (c.creation : ℚ)) :=
  reads_held c.pause rfl rs

theorem pauseResumeUpdate_creation (c : rtc) (a : ℚ) (T0 T2 T3 T4 : timeval) :
    (pauseResumeUpdate c a T0 T2 T3 T4).creation
      = time_t a + time_t (c.factor * timerSeconds T0 T3) := by
  show ((((c.set a T0).pause.resume T2).2).update T3 T4).2.creation = _
  rw [resume_state, update_running _ _ _ rfl]
  rfl

theorem timerSeconds_split (T0 T1 T2 T3 : timeval) :
    timerSeconds T0 T3 = timerSeconds T0 T1 + timerSeconds T1 T2 + timerSeconds T2 T3 := by
  simp only [timerSeconds, kSandTimerDiffCounter]
  ring

/-- C10 as stated fails: on a clock with speed factor 1, `set(0)`, `pause()` at
once, `resume()` after 100 timer seconds and `update()` at once advance the
anchor by the 100 paused seconds, although the pause-free time is 0. -/
theorem C10_paused_time_counterexample :
    (pauseResumeUpdate (rtc.ctor 0 ⟨0, 0⟩) 0 ⟨0, 0⟩ ⟨100, 0⟩ ⟨100, 0⟩ ⟨100, 0⟩).creation = 100 ∧
    ¬ (∀ (c : rtc) (a : Int) (T0 T1 T2 T3 T4 : timeval), c.factor = 1 →
        0 ≤ timerSeconds T0 T1 → 0 ≤ timerSeconds T1 T2 → 0 ≤ timerSeconds T2 T3 →
        |(((pauseResumeUpdate c (a : ℚ) T0 T2 T3 T4).creation - a : Int) : ℚ)
            - (timerSeconds T0 T1 + timerSeconds T2 T3)| ≤ 1) := by
  have e100 : timerSeconds ⟨0, 0⟩ ⟨100, 0⟩ = 100 := by
    norm_num [timerSeconds, kSandTimerDiffCounter]
  have e0 : timerSeconds ⟨0, 0⟩ ⟨0, 0⟩ = 0 := by
    norm_num [timerSeconds, kSandTimerDiffCounter]
  have e00 : timerSeconds ⟨100, 0⟩ ⟨100, 0⟩ = 0 := by
    norm_num [timerSeconds, kSandTimerDiffCounter]
  have h : (pauseResumeUpdate (rtc.ctor 0 ⟨0, 0⟩) 0 ⟨0, 0⟩ ⟨100, 0⟩ ⟨100, 0⟩ ⟨100, 0⟩).creation
      = 100 := by
    rw [pauseResumeUpdate_creation, ctor_eq, e100]
    norm_num [time_t, toInt]
  refine ⟨h, fun hall => ?_⟩
  have h1 := hall (rtc.ctor 0 ⟨0, 0⟩) 0 ⟨0, 0⟩ ⟨0, 0⟩ ⟨100, 0⟩ ⟨100, 0⟩ ⟨100, 0⟩
    (by rw [ctor_eq]) (by rw [e0]) (by rw [e100]; norm_num) (by rw [e00])
  simp only [Int.cast_zero] at h1
  rw [h, e0, e00] at h1
  norm_num at h1

/-- C10, amended: while the clock is paused `update()` leaves the anchor where
`set(a)` put it, but the paused time is not discarded: with speed factor 1 and
a timer that does not run backwards, after `pause()` at `T1` and `resume()` at
`T2` the `update()` at `T3` moves the anchor by the whole timer reading since
`set(a)`, rounded down - the pause-free time plus the paused interval. -/
theorem C10_paused_time_amended (c : rtc) (a : Int) (T0 T1 T2 T3 T4 : timeval)
    (hf : c.factor = 1) (h01 : 0 ≤ timerSeconds T0 T1) (h12 : 0 ≤ timerSeconds T1 T2)
    (h23 : 0 ≤ timerSeconds T2 T3) :
    ((c.set (a : ℚ) T0).pause.update T1 T2).2.creation = a ∧
    (pauseResumeUpdate c (a : ℚ) T0 T2 T3 T4).creation
      = a + ⌊timerSeconds T0 T1 + timerSeconds T1 T2 + timerSeconds T2 T3⌋ := by
  have ha : time_t (a : ℚ) = a := toInt_intCast a
  constructor
  · rw [update_held _ _ _ rfl]
    exact ha
  · rw [pauseResumeUpdate_creation, hf, one_mul, ha, timerSeconds_split T0 T1 T2 T3,
      toInt_floor _ (by linarith)]

/-- C10, amended, for `set(50)` at reading 0, `pause()` at 2 s, `resume()` at
102 s and `update()` at 105 s: the anchor becomes 155. -/
theorem C10_paused_time_amended_witness :
    (pauseResumeUpdate (rtc.ctor 0 ⟨0, 0⟩) ((50 : Int) : ℚ) ⟨0, 0⟩ ⟨102, 0⟩ ⟨105, 0⟩
      ⟨105, 0⟩).creation = 155 := by
  have h := (C10_paused_time_amended (rtc.ctor 0 ⟨0, 0⟩) 50 ⟨0, 0⟩ ⟨2, 0⟩ ⟨102, 0⟩ ⟨105, 0⟩
    ⟨105, 0⟩ (by rw [ctor_eq])
    (by norm_num [timerSeconds, kSandTimerDiffCounter])
    (by norm_num [timerSeconds, kSandTimerDiffCounter])
    (by norm_num [timerSeconds, kSandTimerDiffCounter])).2
  rw [h]
  norm_num [timerSeconds, kSandTimerDiffCounter, Int.floor_eq_iff]

/-! ## Logical clock: resume, set, elapsed -/

theorem elapsed_value (c : rtc) (now : timeval) :
    (c.elapsed now).1 = time_t (c.factor * timerSeconds c.dt.startCount now) := rfl

theorem time_obj_value (c : rtc) (now : timeval) :
    (c.time_obj now).1 = c.creation + time_t (c.factor * timerSeconds c.dt.startCount now) := rfl

theorem resume_value (c : rtc) (now : timeval) :
    (c.resume now).1 = ((time_t (c.factor * timerSeconds c.dt.startCount now) : Int) : ℚ) := by
  show (((c.creation + time_t (c.factor * timerSeconds c.dt.startCount now)) - c.creation : Int) : ℚ)
    = _
  rw [add_sub_cancel_left]

/-- C11: `rtc::resume()` clears the held flag and returns the (truncated) scaled
elapsed seconds since the last `set()`, the value of `elapsed()`, without
folding: anchor, speed factor and start of the timer are as before.  On a
clock that is not paused nothing changes but the timer's record of the counter
reading just taken, and a second call with the same reading changes nothing at
all and returns the same value. -/
theorem C11_resume_no_fold (c : rtc) (now : timeval) :
    (c.resume now).2.held = false ∧
    (c.resume now).1 = ((time_t (c.factor * timerSeconds c.dt.startCount now) : Int) : ℚ) ∧
    (c.resume now).1 = (((c.elapsed now).1 : Int) : ℚ) ∧
    (c.resume now).2.creation = c.creation ∧
    (c.resume now).2.factor = c.factor ∧
    (c.resume now).2.dt.startCount = c.dt.startCount ∧
    (c.held = false →
      (c.resume now).2 = { c with dt := { c.dt with endCount := now } } ∧
      ∀ later : timeval, (c.resume later).1 = ((c.pause.resume later).1)) ∧
    (c.resume now).2.resume now = c.resume now := by
  refine ⟨rfl, resume_value c now, resume_value c now, rfl, rfl, rfl, ?_, ?_⟩
  · intro h
    refine ⟨?_, fun later => ?_⟩
    · rw [resume_state]
      cases c with
      | mk held creation d factor =>
        cases h
        rfl
    · rw [resume_value, resume_value]
      rfl
  · rw [Prod.ext_iff]
    exact ⟨by rw [resume_value, resume_value]; rfl, rfl⟩

/-- C11 on a running clock anchored at 100 with factor 2, 3.5 timer seconds
after its last reset. -/
theorem C11_resume_no_fold_witness :
    ((rtc.mk false 100 ⟨⟨0, 0⟩, ⟨0, 0⟩⟩ 2).resume ⟨3, 500000⟩).2
      = rtc.mk false 100 ⟨⟨0, 0⟩, ⟨3, 500000⟩⟩ 2 :=
  ((C11_resume_no_fold (rtc.mk false 100 ⟨⟨0, 0⟩, ⟨0, 0⟩⟩ 2) ⟨3, 500000⟩).2.2.2.2.2.2.1 rfl).1

/-- C12: `rtc::set(t)` leaves the anchor at `t` truncated to whole seconds (toward
zero), the held flag cleared, the inner timer restarted at the counter reading
of the call, so that the elapsed time is 0 at that moment, and the speed
factor as it was; `get()` then returns the truncated `t`. -/
theorem C12_set_anchors (c : rtc) (t : ℚ) (now : timeval) :
    (c.set t now).creation = (if 0 ≤ t then ⌊t⌋ else ⌈t⌉) ∧
    (c.set t now).held = false ∧
    (c.set t now).dt.startCount = now ∧
    ((c.set t now).dt.s now).1 = 0 ∧
    ((c.set t now).elapsed now).1 = 0 ∧
    (c.set t now).factor = c.factor ∧
    (c.set t now).get = (((if 0 ≤ t then ⌊t⌋ else ⌈t⌉) : Int) : ℚ) := by
  have hs : timerSeconds now now = 0 := by
    simp [timerSeconds, kSandTimerDiffCounter]
  refine ⟨rfl, rfl, rfl, hs, ?_, rfl, rfl⟩
  show time_t (c.factor * timerSeconds now now) = 0
  rw [hs, mul_zero]
  exact toInt_intCast 0

/-- C13 as stated fails: with speed factor 1 and half a second on the inner
timer `elapsed()` is 0, not 1/2. -/
theorem C13_elapsed_counterexample :
    ((rtc.mk false 0 ⟨⟨0, 0⟩, ⟨0, 0⟩⟩ 1).elapsed ⟨0, 500000⟩).1 = 0 ∧
    (rtc.mk false 0 ⟨⟨0, 0⟩, ⟨0, 0⟩⟩ 1).factor * timerSeconds ⟨0, 0⟩ ⟨0, 500000⟩ = 1 / 2 ∧
    ¬ (∀ (c : rtc) (now : timeval), 0 < c.factor → 0 ≤ timerSeconds c.dt.startCount now →
        (((c.elapsed now).1 : Int) : ℚ) = c.factor * timerSeconds c.dt.startCount now) := by
  have hs : timerSeconds ⟨0, 0⟩ ⟨0, 500000⟩ = 1 / 2 := by
    norm_num [timerSeconds, kSandTimerDiffCounter]
  have he : ((rtc.mk false 0 ⟨⟨0, 0⟩, ⟨0, 0⟩⟩ 1).elapsed ⟨0, 500000⟩).1 = 0 := by
    rw [elapsed_value]
    show time_t (1 * timerSeconds ⟨0, 0⟩ ⟨0, 500000⟩) = 0
    rw [hs, toInt_floor _ (by norm_num)]
    norm_num [Int.floor_eq_iff]
  refine ⟨he, by rw [hs]; norm_num, fun hall => ?_⟩
  have h := hall (rtc.mk false 0 ⟨⟨0, 0⟩, ⟨0, 0⟩⟩ 1) ⟨0, 500000⟩ (by norm_num)
    (by show 0 ≤ timerSeconds ⟨0, 0⟩ ⟨0, 500000⟩; rw [hs]; norm_num)
  rw [he] at h
  have h' : ((0 : Int) : ℚ) = 1 * timerSeconds ⟨0, 0⟩ ⟨0, 500000⟩ := h
  rw [hs] at h'
  norm_num at h'

/-- C13, amended: for speed factor `f > 0` and a timer reading of `s ≥ 0` seconds,
`elapsed()` is `floor(f * s)`, whole seconds, and `time_obj()` is
`anchor + floor(f * s)`, that is `anchor + floor(elapsed())`. -/
theorem C13_elapsed_amended (c : rtc) (now : timeval) (hf : 0 < c.factor)
    (hs : 0 ≤ timerSeconds c.dt.startCount now) :
    (c.elapsed now).1 = ⌊c.factor * timerSeconds c.dt.startCount now⌋ ∧
    (c.time_obj now).1 = c.creation + ⌊c.factor * timerSeconds c.dt.startCount now⌋ ∧
    (c.time_obj now).1 = c.creation + ⌊(((c.elapsed now).1 : Int) : ℚ)⌋ := by
  have h := toInt_floor _ (mul_nonneg hf.le hs)
  refine ⟨?_, ?_, ?_⟩
  · rw [elapsed_value, h]
  · rw [time_obj_value, h]
  · rw [time_obj_value, elapsed_value, Int.floor_intCast]

/-- C13, amended, on a clock anchored at 100 with factor 2, 3.5 timer seconds
after its last reset: `elapsed()` is 7 and `time_obj()` is 107. -/
theorem C13_elapsed_amended_witness :
    ((rtc.mk false 100 ⟨⟨0, 0⟩, ⟨0, 0⟩⟩ 2).elapsed ⟨3, 500000⟩).1 = 7 ∧
    ((rtc.mk false 100 ⟨⟨0, 0⟩, ⟨0, 0⟩⟩ 2).time_obj ⟨3, 500000⟩).1 = 107 := by
  have hs : timerSeconds ⟨0, 0⟩ ⟨3, 500000⟩ = 7 / 2 := by
    norm_num [timerSeconds, kSandTimerDiffCounter]
  have h := C13_elapsed_amended (rtc.mk false 100 ⟨⟨0, 0⟩, ⟨0, 0⟩⟩ 2) ⟨3, 500000⟩
    (by norm_num) (by show 0 ≤ timerSeconds ⟨0, 0⟩ ⟨3, 500000⟩; rw [hs]; norm_num)
  have hfl : ⌊(2 : ℚ) * (7 / 2)⌋ = 7 := by norm_num
  constructor
  · rw [h.1]
    show ⌊(2 : ℚ) * timerSeconds ⟨0, 0⟩ ⟨3, 500000⟩⌋ = 7
    rw [hs, hfl]
  · rw [h.2.1]
    show 100 + ⌊(2 : ℚ) * timerSeconds ⟨0, 0⟩ ⟨3, 500000⟩⌋ = 107
    rw [hs, hfl]
    rfl

/-- C14: for the same timer reading `s ≥ 0`, `elapsed()` after `shift(2.0)` is
twice `elapsed()` after `shift(1.0)`, within one second. -/
theorem C14_double_speed (c c1 c2 : rtc) (now : timeval)
    (h1 : c.shift 1.0 = .returned c1) (h2 : c.shift 2.0 = .returned c2)
    (hs : 0 ≤ timerSeconds c.dt.startCount now) :
    |(c2.elapsed now).1 - 2 * (c1.elapsed now).1| ≤ 1 := by
  have e1 : c1 = { c with factor := 1.0 } := by
    have : c.shift 1.0 = .returned { c with factor := 1.0 } := by
      norm_num [rtc.shift]
    rw [this] at h1
    cases h1
    rfl
  have e2 : c2 = { c with factor := 2.0 } := by
    have : c.shift 2.0 = .returned { c with factor := 2.0 } := by
      norm_num [rtc.shift]
    rw [this] at h2
    cases h2
    rfl
  subst e1 e2
  rw [elapsed_value, elapsed_value]
  show |time_t (2.0 * timerSeconds c.dt.startCount now)
      - 2 * time_t (1.0 * timerSeconds c.dt.startCount now)| ≤ 1
  generalize timerSeconds c.dt.startCount now = s at hs
  rw [toInt_floor _ (by norm_num; exact hs), toInt_floor _ (by norm_num; exact hs)]
  have a : 1.0 * s = s := by norm_num
  have b : (2.0 : ℚ) * s = 2 * s := by norm_num
  rw [a, b]
  have l1 := Int.floor_le s
  have l2 := Int.lt_floor_add_one s
  have lo : 2 * ⌊s⌋ ≤ ⌊2 * s⌋ := by
    rw [Int.le_floor]
    push_cast
    linarith
  have hi : ⌊2 * s⌋ < 2 * ⌊s⌋ + 2 := by
    rw [Int.floor_lt]
    push_cast
    linarith
  rw [abs_le]
  constructor <;> omega

/-- C14 on a clock anchored at 100, 3.5 timer seconds after its last reset: the
two values are 7 and 3. -/
theorem C14_double_speed_witness :
    |((rtc.mk false 100 ⟨⟨0, 0⟩, ⟨0, 0⟩⟩ 2.0).elapsed ⟨3, 500000⟩).1
      - 2 * ((rtc.mk false 100 ⟨⟨0, 0⟩, ⟨0, 0⟩⟩ 1.0).elapsed ⟨3, 500000⟩).1| ≤ 1 :=
  C14_double_speed (rtc.mk false 100 ⟨⟨0, 0⟩, ⟨0, 0⟩⟩ 5) _ _ ⟨3, 500000⟩
    (by norm_num [rtc.shift]) (by norm_num [rtc.shift])
    (by norm_num [timerSeconds, kSandTimerDiffCounter])

/-! ## Text import: auxiliary facts -/

theorem tokenizeStep_concat (chars : List Char) (done : List (List Char)) (cur : List Char)
    (c : Char) :
    tokenizeStep chars (done ++ [cur]) c =
      if c ∉ chars then done ++ [cur ++ [c]]
      else if cur.length ≠ 0 then (done ++ [cur]) ++ [[]]
      else done ++ [cur] := by
  simp [tokenizeStep]

/-- Characters that are no delimiters extend the last token. -/
theorem foldl_word (chars : List Char) (w : List Char) (hw : ∀ c ∈ w, c ∉ chars)
    (done : List (List Char)) (cur : List Char) :
    w.foldl (tokenizeStep chars) (done ++ [cur]) = done ++ [cur ++ w] := by
  induction w generalizing cur with
  | nil => simp
  | cons a w ih =>
    have ha : a ∉ chars := hw a (List.mem_cons_self _ _)
    rw [List.foldl_cons, tokenizeStep_concat, if_pos ha,
      ih (fun c hc => hw c (List.mem_cons_of_mem _ hc))]
    simp

/-- Delimiters after an empty last token change nothing. -/
theorem foldl_sep_empty (chars : List Char) (r : List Char) (hr : ∀ c ∈ r, c ∈ chars)
    (done : List (List Char)) :
    r.foldl (tokenizeStep chars) (done ++ [[]]) = done ++ [[]] := by
  induction r with
  | nil => rfl
  | cons a r ih =>
    have ha : ¬ (a ∉ chars) := not_not.mpr (hr a (List.mem_cons_self _ _))
    rw [List.foldl_cons, tokenizeStep_concat, if_neg ha]
    simpa using ih (fun c hc => hr c (List.mem_cons_of_mem _ hc))

/-- A non-empty run of delimiters after a non-empty last token opens one new token. -/
theorem foldl_sep (chars : List Char) (r : List Char) (hr : ∀ c ∈ r, c ∈ chars)
    (hne : r ≠ []) (done : List (List Char)) (cur : List Char) (hcur : cur ≠ []) :
    r.foldl (tokenizeStep chars) (done ++ [cur]) = (done ++ [cur]) ++ [[]] := by
  cases r with
  | nil => exact absurd rfl hne
  | cons a r =>
    have ha : ¬ (a ∉ chars) := not_not.mpr (hr a (List.mem_cons_self _ _))
    have hl : cur.length ≠ 0 := by
      intro h
      exact hcur (List.length_eq_zero.mp h)
    rw [List.foldl_cons, tokenizeStep_concat, if_neg ha, if_pos hl]
    exact foldl_sep_empty chars r (fun c hc => hr c (List.mem_cons_of_mem _ hc)) _

theorem foldl_delimited (chars : List Char) (rest : List (List Char × List Char))
    (hrest : ∀ p ∈ rest, (p.1 ≠ [] ∧ ∀ c ∈ p.1, c ∈ chars) ∧ (p.2 ≠ [] ∧ ∀ c ∈ p.2, c ∉ chars))
    (done : List (List Char)) (cur : List Char) (hcur : cur ≠ []) :
    ((rest.map (fun p => p.1 ++ p.2)).flatten).foldl (tokenizeStep chars) (done ++ [cur])
      = done ++ cur :: rest.map (fun p => p.2) := by
  induction rest generalizing done cur with
  | nil => simp
  | cons p rest ih =>
    obtain ⟨⟨hs1, hs2⟩, hf1, hf2⟩ := hrest p (List.mem_cons_self _ _)
    rw [List.map_cons, List.flatten_cons, List.foldl_append, List.foldl_append,
      foldl_sep chars p.1 hs2 hs1 done cur hcur, foldl_word chars p.2 hf2,
      ih (fun q hq => hrest q (List.mem_cons_of_mem _ hq)) _ _ (by simpa using hf1)]
    simp

/-- The tokens of a text made of non-empty delimiter-free fields separated by
non-empty runs of delimiters are the fields. -/
theorem tokenize_delimited (chars : List Char) (first : List Char)
    (rest : List (List Char × List Char))
    (hfirst : first ≠ [] ∧ ∀ c ∈ first, c ∉ chars)
    (hrest : ∀ p ∈ rest, (p.1 ≠ [] ∧ ∀ c ∈ p.1, c ∈ chars) ∧ (p.2 ≠ [] ∧ ∀ c ∈ p.2, c ∉ chars)) :
    tokenize (delimited first rest) chars = first :: rest.map (fun p => p.2) := by
  have hfold : (delimited first rest).foldl (tokenizeStep chars) [[]]
      = first :: rest.map (fun p => p.2) := by
    have h1 := foldl_word chars first hfirst.2 [] []
    have h2 := foldl_delimited chars rest hrest [] first hfirst.1
    simp only [List.nil_append] at h1 h2
    rw [delimited, List.foldl_append, h1, h2]
  show List.rdropWhile (fun tk => tk.length == 0)
      ((delimited first rest).foldl (tokenizeStep chars) [[]]) = _
  rw [hfold]
  rw [List.rdropWhile_eq_self_iff]
  intro hl
  have hmem : (first :: rest.map (fun p => p.2)).getLast hl ∈ first :: rest.map (fun p => p.2) :=
    List.getLast_mem hl
  have hne : (first :: rest.map (fun p => p.2)).getLast hl ≠ [] := by
    rcases List.mem_cons.mp hmem with h | h
    · rw [h]
      exact hfirst.1
    · obtain ⟨p, hp, hpe⟩ := List.mem_map.mp h
      rw [← hpe]
      exact (hrest p hp).2.1
  simpa using hne

theorem tokenize_nil (chars : List Char) : tokenize [] chars = [] := by
  simp [tokenize, List.rdropWhile]

theorem str_import_short (mktime : tm → Int) (c : rtc) (s : List Char) (now : timeval)
    (h : (tokenize s delimiters).length < 6) :
    c.str_import mktime s now = c.set 0 now := by
  unfold rtc.str_import
  have h' : (tokenize s [':', '-', '/', ' ']).length < 6 := h
  simp only [h', if_true]

theorem str_import_long (mktime : tm → Int) (c : rtc) (s : List Char) (now : timeval)
    (h : 6 ≤ (tokenize s delimiters).length) :
    c.str_import mktime s now =
      { held := false
        creation := mktime (importedFields (tokenize s delimiters))
        dt := ⟨now, ⟨0, 0⟩⟩
        factor := 1 } := by
  unfold rtc.str_import
  have h' : ¬ (tokenize s [':', '-', '/', ' ']).length < 6 := not_lt.mpr h
  simp only [h', if_false, rtc.set, dt.reset, toInt_intCast, time_t, importedFields, delimiters]
  norm_num

theorem numericField_spec (f : List Char) (h : numericField f = true) :
    f ≠ [] ∧ ∀ c ∈ f, c ∉ delimiters := by
  simp only [numericField, Bool.and_eq_true, Bool.not_eq_true', List.all_eq_true] at h
  refine ⟨fun hf => by simp [hf] at h, fun c hc hd => ?_⟩
  have hdig := h.2 c hc
  simp only [delimiters, List.mem_cons, List.mem_singleton, List.not_mem_nil, or_false] at hd
  rcases hd with rfl | rfl | rfl | rfl <;> exact absurd hdig (by decide)

theorem delimiterRun_spec (s : List Char) (h : delimiterRun s = true) :
    s ≠ [] ∧ ∀ c ∈ s, c ∈ delimiters := by
  simp only [delimiterRun, Bool.and_eq_true, Bool.not_eq_true', List.all_eq_true,
    decide_eq_true_eq] at h
  exact ⟨fun hs => by simp [hs] at h, h.2⟩

theorem as_int_no_digit (f : List Char) (h : ∀ c ∈ f, c.isDigit = false) : as_int f = 0 := by
  unfold as_int
  have hsub : ∀ l : List Char, (∀ c ∈ l, c ∈ f) → l.takeWhile Char.isDigit = [] := by
    intro l hl
    cases l with
    | nil => rfl
    | cons a l =>
      have := h a (hl a (List.mem_cons_self _ _))
      simp [List.takeWhile, this]
  have hdrop : ∀ c ∈ f.dropWhile (fun c => c == ' ' || (9 ≤ c.toNat && c.toNat ≤ 13)), c ∈ f :=
    fun c hc => (List.dropWhile_sublist _).subset hc
  have htail : ∀ c ∈ (f.dropWhile (fun c => c == ' ' || (9 ≤ c.toNat && c.toNat ≤ 13))).tail,
      c ∈ f := fun c hc => hdrop c (List.mem_of_mem_tail hc)
  have hds : List.takeWhile Char.isDigit
      (if ((f.dropWhile (fun c => c == ' ' || (9 ≤ c.toNat && c.toNat ≤ 13))).head? == some '-'
          || (f.dropWhile (fun c => c == ' ' || (9 ≤ c.toNat && c.toNat ≤ 13))).head? == some '+')
          = true
        then (f.dropWhile (fun c => c == ' ' || (9 ≤ c.toNat && c.toNat ≤ 13))).tail
        else f.dropWhile (fun c => c == ' ' || (9 ≤ c.toNat && c.toNat ≤ 13))) = [] := by
    split_ifs
    · exact hsub _ htail
    · exact hsub _ hdrop
  simp only [hds, List.isEmpty_nil, if_true]

/-- C15: for every text with fewer than six tokens, the empty text among them,
`rtc::str( import )` does what `set( 0 )` does: the anchor is the instant 0, the
held flag is cleared, and nothing is raised (the function is total). -/
theorem C15_short_input_resets (mktime : tm → Int) (c : rtc) (now : timeval) :
    (∀ s : List Char, (tokenize s delimiters).length < 6 →
      c.str_import mktime s now = c.set 0 now ∧
      (c.str_import mktime s now).creation = 0 ∧
      (c.str_import mktime s now).get = 0 ∧
      (c.str_import mktime s now).held = false) ∧
    (tokenize [] delimiters).length < 6 ∧
    (c.str_import mktime [] now).creation = 0 ∧
    (c.str_import mktime [] now).held = false := by
  have key : ∀ s : List Char, (tokenize s delimiters).length < 6 →
      c.str_import mktime s now = c.set 0 now ∧
      (c.str_import mktime s now).creation = 0 ∧
      (c.str_import mktime s now).get = 0 ∧
      (c.str_import mktime s now).held = false := by
    intro s hs
    have h0 : time_t 0 = 0 := toInt_intCast 0
    rw [str_import_short mktime c s now hs]
    refine ⟨rfl, h0, ?_, rfl⟩
    show (((time_t 0 : Int)) : ℚ) = 0
    rw [h0]
    rfl
  have hnil : (tokenize [] delimiters).length < 6 := by
    rw [tokenize_nil]
    decide
  exact ⟨key, hnil, (key [] hnil).2.1, (key [] hnil).2.2.2⟩

/-- C15 for the three-field text `2013-01-02` and a paused clock anchored at 77. -/
theorem C15_short_input_resets_witness :
    ((rtc.mk true 77 ⟨⟨0, 0⟩, ⟨0, 0⟩⟩ 3).str_import mktimeUTC
        ['2', '0', '1', '3', '-', '0', '1', '-', '0', '2'] ⟨9, 0⟩).creation = 0 ∧
    ((rtc.mk true 77 ⟨⟨0, 0⟩, ⟨0, 0⟩⟩ 3).str_import mktimeUTC
        ['2', '0', '1', '3', '-', '0', '1', '-', '0', '2'] ⟨9, 0⟩).held = false := by
  have ht : tokenize ['2', '0', '1', '3', '-', '0', '1', '-', '0', '2'] delimiters
      = [['2', '0', '1', '3'], ['0', '1'], ['0', '2']] :=
    tokenize_delimited delimiters ['2', '0', '1', '3'] [(['-'], ['0', '1']), (['-'], ['0', '2'])]
      (by decide) (by decide)
  have h := (C15_short_input_resets mktimeUTC (rtc.mk true 77 ⟨⟨0, 0⟩, ⟨0, 0⟩⟩ 3) ⟨9, 0⟩).1
    ['2', '0', '1', '3', '-', '0', '1', '-', '0', '2'] (by rw [ht]; decide)
  exact ⟨h.2.1, h.2.2.2⟩

theorem tokens_sample :
    tokenize ['2', '0', '1', '3', '-', 'x', 'x', '-', '0', '5', ' ', '1', '0', ':', '2', '0',
        ':', '3', '0'] delimiters
      = [['2', '0', '1', '3'], ['x', 'x'], ['0', '5'], ['1', '0'], ['2', '0'], ['3', '0']] :=
  tokenize_delimited delimiters ['2', '0', '1', '3']
    [(['-'], ['x', 'x']), (['-'], ['0', '5']), ([' '], ['1', '0']), ([':'], ['2', '0']),
      ([':'], ['3', '0'])] (by decide) (by decide)

/-- C16 as stated fails: the text `2013-xx-05 10:20:30` has six delimited fields
of which five are numbers, and on a host in UTC `rtc::str( import )` sets the
anchor 1354702830 (2012-12-05 10:20:30), not 0. -/
theorem C16_non_numeric_counterexample :
    ((tokenize ['2', '0', '1', '3', '-', 'x', 'x', '-', '0', '5', ' ', '1', '0', ':', '2', '0',
        ':', '3', '0'] delimiters).filter numericField).length = 5 ∧
    ((rtc.ctor 0 ⟨0, 0⟩).str_import mktimeUTC
        ['2', '0', '1', '3', '-', 'x', 'x', '-', '0', '5', ' ', '1', '0', ':', '2', '0',
          ':', '3', '0'] ⟨0, 0⟩).creation = 1354702830 ∧
    ¬ (∀ (mktime : tm → Int) (c : rtc) (s : List Char) (now : timeval),
        ((tokenize s delimiters).filter numericField).length < 6 →
        (c.str_import mktime s now).creation = 0) := by
  have hc : ((rtc.ctor 0 ⟨0, 0⟩).str_import mktimeUTC
      ['2', '0', '1', '3', '-', 'x', 'x', '-', '0', '5', ' ', '1', '0', ':', '2', '0',
        ':', '3', '0'] ⟨0, 0⟩).creation = 1354702830 := by
    rw [str_import_long _ _ _ _ (by rw [tokens_sample]; decide), tokens_sample]
    decide
  refine ⟨by rw [tokens_sample]; decide, hc, fun hall => ?_⟩
  have h := hall mktimeUTC (rtc.ctor 0 ⟨0, 0⟩) _ ⟨0, 0⟩ (by rw [tokens_sample]; decide)
  rw [hc] at h
  exact absurd h (by decide)

/-- C16, amended: `rtc::str( import )` counts delimited fields, numeric or not.
With fewer than six fields it sets the anchor 0 and raises nothing; with six or
more it raises nothing either, reads each of the first six fields with
`as<int>()` - a field without any digit gives 0 - and sets the anchor that
`mktime` returns for these values. -/
theorem C16_non_numeric_amended (mktime : tm → Int) (c : rtc) (s : List Char) (now : timeval) :
    ((tokenize s delimiters).length < 6 →
      (c.str_import mktime s now).creation = 0 ∧ (c.str_import mktime s now).held = false) ∧
    (6 ≤ (tokenize s delimiters).length →
      (c.str_import mktime s now).creation = mktime (importedFields (tokenize s delimiters)) ∧
      (c.str_import mktime s now).held = false) ∧
    (∀ field : List Char, (∀ ch ∈ field, ch.isDigit = false) → as_int field = 0) := by
  refine ⟨fun h => ?_, fun h => ?_, as_int_no_digit⟩
  · rw [str_import_short mktime c s now h]
    exact ⟨toInt_intCast 0, rfl⟩
  · rw [str_import_long mktime c s now h]
    exact ⟨rfl, rfl⟩

/-- C16, amended, on the five-field text `xx-05 10:20:30` and on the six-field
text `2013-xx-05 10:20:30`, host in UTC. -/
theorem C16_non_numeric_amended_witness :
    ((rtc.ctor 7 ⟨0, 0⟩).str_import mktimeUTC
        ['x', 'x', '-', '0', '5', ' ', '1', '0', ':', '2', '0', ':', '3', '0'] ⟨0, 0⟩).creation
      = 0 ∧
    ((rtc.ctor 7 ⟨0, 0⟩).str_import mktimeUTC
        ['2', '0', '1', '3', '-', 'x', 'x', '-', '0', '5', ' ', '1', '0', ':', '2', '0',
          ':', '3', '0'] ⟨0, 0⟩).creation
      = mktimeUTC ⟨30, 20, 10, 5, -1, 113, -1⟩ := by
  have ht : tokenize ['x', 'x', '-', '0', '5', ' ', '1', '0', ':', '2', '0', ':', '3', '0']
      delimiters = [['x', 'x'], ['0', '5'], ['1', '0'], ['2', '0'], ['3', '0']] :=
    tokenize_delimited delimiters ['x', 'x']
      [(['-'], ['0', '5']), ([' '], ['1', '0']), ([':'], ['2', '0']), ([':'], ['3', '0'])]
      (by decide) (by decide)
  constructor
  · exact ((C16_non_numeric_amended mktimeUTC (rtc.ctor 7 ⟨0, 0⟩) _ ⟨0, 0⟩).1
      (by rw [ht]; decide)).1
  · rw [((C16_non_numeric_amended mktimeUTC (rtc.ctor 7 ⟨0, 0⟩) _ ⟨0, 0⟩).2.1
      (by rw [tokens_sample]; decide)).1, tokens_sample]
    decide

/-- C18: six numeric fields in the order year, month, day, hour, minute, second,
separated by any non-empty runs of the delimiters, tokenize to these six
fields, so `rtc::str( import )` leaves the same clock - the same anchor - as for
the canonical text that separates them with `-`, `-`, space, `:`, `:`. -/
theorem C18_any_delimiter (mktime : tm → Int) (c : rtc) (now : timeval)
    (Y Mo D H Mi S s1 s2 s3 s4 s5 : List Char)
    (hY : numericField Y = true) (hMo : numericField Mo = true) (hD : numericField D = true)
    (hH : numericField H = true) (hMi : numericField Mi = true) (hS : numericField S = true)
    (h1 : delimiterRun s1 = true) (h2 : delimiterRun s2 = true) (h3 : delimiterRun s3 = true)
    (h4 : delimiterRun s4 = true) (h5 : delimiterRun s5 = true) :
    tokenize (delimited Y [(s1, Mo), (s2, D), (s3, H), (s4, Mi), (s5, S)]) delimiters
      = [Y, Mo, D, H, Mi, S] ∧
    tokenize (delimited Y [(['-'], Mo), (['-'], D), ([' '], H), ([':'], Mi), ([':'], S)])
        delimiters = [Y, Mo, D, H, Mi, S] ∧
    c.str_import mktime (delimited Y [(s1, Mo), (s2, D), (s3, H), (s4, Mi), (s5, S)]) now
      = c.str_import mktime
          (delimited Y [(['-'], Mo), (['-'], D), ([' '], H), ([':'], Mi), ([':'], S)]) now ∧
    (c.str_import mktime (delimited Y [(s1, Mo), (s2, D), (s3, H), (s4, Mi), (s5, S)])
        now).creation
      = mktime ⟨as_int S, as_int Mi, as_int H, as_int D, as_int Mo - 1, as_int Y - 1900, -1⟩ := by
  have key : ∀ t1 t2 t3 t4 t5 : List Char, delimiterRun t1 = true → delimiterRun t2 = true →
      delimiterRun t3 = true → delimiterRun t4 = true → delimiterRun t5 = true →
      tokenize (delimited Y [(t1, Mo), (t2, D), (t3, H), (t4, Mi), (t5, S)]) delimiters
        = [Y, Mo, D, H, Mi, S] := by
    intro t1 t2 t3 t4 t5 g1 g2 g3 g4 g5
    refine tokenize_delimited delimiters Y _
      ⟨(numericField_spec Y hY).1, (numericField_spec Y hY).2⟩ ?_
    intro p hp
    simp only [List.mem_cons, List.mem_singleton, List.not_mem_nil, or_false] at hp
    rcases hp with rfl | rfl | rfl | rfl | rfl
    · exact ⟨delimiterRun_spec _ g1, numericField_spec _ hMo⟩
    · exact ⟨delimiterRun_spec _ g2, numericField_spec _ hD⟩
    · exact ⟨delimiterRun_spec _ g3, numericField_spec _ hH⟩
    · exact ⟨delimiterRun_spec _ g4, numericField_spec _ hMi⟩
    · exact ⟨delimiterRun_spec _ g5, numericField_spec _ hS⟩
  have ka := key s1 s2 s3 s4 s5 h1 h2 h3 h4 h5
  have kb := key ['-'] ['-'] [' '] [':'] [':'] (by decide) (by decide) (by decide) (by decide)
    (by decide)
  have la : 6 ≤ (tokenize (delimited Y [(s1, Mo), (s2, D), (s3, H), (s4, Mi), (s5, S)])
      delimiters).length := by
    rw [ka]
    exact le_refl 6
  have lb : 6 ≤ (tokenize (delimited Y [(['-'], Mo), (['-'], D), ([' '], H), ([':'], Mi),
      ([':'], S)]) delimiters).length := by
    rw [kb]
    exact le_refl 6
  refine ⟨ka, kb, ?_, ?_⟩
  · rw [str_import_long mktime c _ now la, str_import_long mktime c _ now lb, ka, kb]
  · rw [str_import_long mktime c _ now la, ka]
    rfl

/-- C18 for the fields 2013, 01, 02, 03, 04, 05 written as `2013/01/02 - 03 04::05`. -/
theorem C18_any_delimiter_witness :
    (rtc.ctor 0 ⟨0, 0⟩).str_import mktimeUTC
        (delimited ['2', '0', '1', '3'] [(['/'], ['0', '1']), (['/'], ['0', '2']),
          ([' ', '-', ' '], ['0', '3']), ([' '], ['0', '4']), ([':', ':'], ['0', '5'])]) ⟨0, 0⟩
      = (rtc.ctor 0 ⟨0, 0⟩).str_import mktimeUTC
        (delimited ['2', '0', '1', '3'] [(['-'], ['0', '1']), (['-'], ['0', '2']),
          ([' '], ['0', '3']), ([':'], ['0', '4']), ([':'], ['0', '5'])]) ⟨0, 0⟩ :=
  (C18_any_delimiter mktimeUTC (rtc.ctor 0 ⟨0, 0⟩) ⟨0, 0⟩ ['2', '0', '1', '3'] ['0', '1']
    ['0', '2'] ['0', '3'] ['0', '4'] ['0', '5'] ['/'] ['/'] [' ', '-', ' '] [' '] [':', ':']
    (by decide) (by decide) (by decide) (by decide) (by decide) (by decide)
    (by decide) (by decide) (by decide) (by decide) (by decide)).2.2.1

/-! ## Text export: auxiliary facts -/

theorem digitChar_facts (d : Nat) (h : d < 10) :
    (Nat.digitChar d).isDigit = true ∧ (Nat.digitChar d).toNat - 48 = d ∧
    Nat.digitChar d ∉ delimiters ∧ Nat.digitChar d ≠ '-' ∧ Nat.digitChar d ≠ '+' ∧
    (Nat.digitChar d == ' ' || (decide (9 ≤ (Nat.digitChar d).toNat)
      && decide ((Nat.digitChar d).toNat ≤ 13))) = false := by
  interval_cases d <;> decide

theorem digitsValue_concat (l : List Char) (c : Char) :
    digitsValue (l ++ [c]) = 10 * digitsValue l + (c.toNat - 48) := by
  simp [digitsValue, List.foldl_append]

theorem decimalDigits_spec (fuel n : Nat) (h : n < fuel) :
    decimalDigits fuel n ≠ [] ∧
    (∀ c ∈ decimalDigits fuel n, ∃ d, d < 10 ∧ c = Nat.digitChar d) ∧
    digitsValue (decimalDigits fuel n) = n := by
  induction fuel generalizing n with
  | zero => omega
  | succ fuel ih =>
    unfold decimalDigits
    by_cases hn : n < 10
    · simp only [hn, if_true]
      refine ⟨by simp, ?_, ?_⟩
      · intro c hc
        exact ⟨n, hn, by simpa using hc⟩
      · have := (digitChar_facts n hn).2.1
        simp [digitsValue, this]
    · simp only [hn, if_false]
      have hlt : n / 10 < fuel := by omega
      obtain ⟨_, h2, h3⟩ := ih (n / 10) hlt
      have hm : n % 10 < 10 := Nat.mod_lt _ (by norm_num)
      refine ⟨by simp, ?_, ?_⟩
      · intro c hc
        rcases List.mem_append.mp hc with hc | hc
        · exact h2 c hc
        · exact ⟨n % 10, hm, by simpa using hc⟩
      · rw [digitsValue_concat, h3, (digitChar_facts _ hm).2.1]
        omega

/-- Reading back a numeral: a non-empty run of decimal digits whose value fits
an `int` is read as that value. -/
theorem as_int_digits (l : List Char) (hne : l ≠ [])
    (hall : ∀ c ∈ l, ∃ d, d < 10 ∧ c = Nat.digitChar d)
    (hv : digitsValue l ≤ 2147483647) : as_int l = (digitsValue l : Int) := by
  cases l with
  | nil => exact absurd rfl hne
  | cons a l =>
    obtain ⟨d, hd, rfl⟩ := hall _ (List.mem_cons_self _ _)
    obtain ⟨f1, _, _, f4, f5, f6⟩ := digitChar_facts d hd
    have htake : List.takeWhile Char.isDigit (Nat.digitChar d :: l) = Nat.digitChar d :: l := by
      rw [List.takeWhile_eq_self_iff]
      intro c hc
      obtain ⟨e, he, rfl⟩ := hall c hc
      exact (digitChar_facts e he).1
    have hdrop : List.dropWhile (fun c => c == ' ' || (9 ≤ c.toNat && c.toNat ≤ 13))
        (Nat.digitChar d :: l) = Nat.digitChar d :: l := by
      rw [List.dropWhile_cons_of_neg]
      simpa using f6
    unfold as_int
    simp only [hdrop, List.head?_cons]
    have hm : (some (Nat.digitChar d) == some '-') = false := by
      simpa using f4
    have hp : (some (Nat.digitChar d) == some '+') = false := by
      simpa using f5
    simp only [hm, hp, Bool.or_self, Bool.false_eq_true, if_false, htake, List.isEmpty_cons]
    have : ¬ (((digitsValue (Nat.digitChar d :: l) : Nat) : Int) < -2147483648 ∨
        2147483647 < ((digitsValue (Nat.digitChar d :: l) : Nat) : Int)) := by
      omega
    simp only [this, if_false]

theorem decimal_spec (n : Int) (h0 : 0 ≤ n) (h1 : n ≤ 2147483647) :
    (decimal n ≠ [] ∧ ∀ c ∈ decimal n, c ∉ delimiters) ∧ as_int (decimal n) = n := by
  have hneg : ¬ n < 0 := not_lt.mpr h0
  unfold decimal
  simp only [hneg, if_false]
  obtain ⟨a, b, c⟩ := decimalDigits_spec (n.toNat + 1) n.toNat (Nat.lt_succ_self _)
  refine ⟨⟨a, fun ch hch => ?_⟩, ?_⟩
  · obtain ⟨d, hd, rfl⟩ := b ch hch
    exact (digitChar_facts d hd).2.2.1
  · rw [as_int_digits _ a b (by rw [c]; omega), c]
    omega

theorem pad2_spec (n : Int) (h0 : 0 ≤ n) (h1 : n ≤ 99) :
    (pad2 n ≠ [] ∧ ∀ c ∈ pad2 n, c ∉ delimiters) ∧ as_int (pad2 n) = n := by
  unfold pad2
  by_cases hn : 0 ≤ n ∧ n < 10
  · simp only [hn, and_self, if_true]
    have hneg : ¬ n < 0 := not_lt.mpr h0
    obtain ⟨a, b, c⟩ := decimalDigits_spec (n.toNat + 1) n.toNat (Nat.lt_succ_self _)
    have hd : decimal n = decimalDigits (n.toNat + 1) n.toNat := by
      unfold decimal
      simp only [hneg, if_false]
    have hall : ∀ ch ∈ '0' :: decimal n, ∃ d, d < 10 ∧ ch = Nat.digitChar d := by
      intro ch hch
      rcases List.mem_cons.mp hch with h | h
      · exact ⟨0, by norm_num, h⟩
      · rw [hd] at h
        exact b ch h
    have hval : digitsValue ('0' :: decimal n) = n.toNat := by
      have hz : ∀ l : List Char, digitsValue ('0' :: l) = digitsValue l := fun l => rfl
      rw [hz, hd, c]
    refine ⟨⟨by simp, fun ch hch => ?_⟩, ?_⟩
    · obtain ⟨d, hd', rfl⟩ := hall ch hch
      exact (digitChar_facts d hd').2.2.1
    · rw [as_int_digits _ (by simp) hall (by rw [hval]; omega), hval]
      omega
  · simp only [hn, if_false]
    exact decimal_spec n h0 (by omega)

theorem str_eq_delimited (localtime : Int → tm) (c : rtc) :
    c.str localtime =
      delimited (decimal ((localtime c.creation).tm_year + 1900))
        [(['-'], pad2 ((localtime c.creation).tm_mon + 1)),
         (['-'], pad2 (localtime c.creation).tm_mday),
         ([' '], pad2 (localtime c.creation).tm_hour),
         ([':'], pad2 (localtime c.creation).tm_min),
         ([':'], pad2 (localtime c.creation).tm_sec)] := by
  have h : time_t c.get = c.creation := toInt_intCast c.creation
  simp only [rtc.str, rtc.format, h, strftime, delimited, List.map_cons, List.map_nil,
    List.flatten_cons, List.flatten_nil, List.append_nil, List.append_assoc, List.cons_append,
    List.nil_append]

/-- The anchor that `rtc::str( import )` sets for the text of `rtc::str()`: what the
host's `mktime` returns for the six calendar fields of the exported anchor, with
`tm_isdst = -1`. -/
theorem import_of_export (localtime : Int → tm) (mktime : tm → Int) (c : rtc)
    (hrep : representable (localtime c.creation) = true) (c1 : rtc) (now : timeval) :
    (c1.str_import mktime (c.str localtime) now).creation
      = mktime { localtime c.creation with tm_isdst := -1 } := by
  simp only [representable, Bool.and_eq_true, decide_eq_true_eq] at hrep
  obtain ⟨⟨⟨⟨⟨⟨⟨⟨⟨⟨⟨y0, y1⟩, mo0⟩, mo1⟩, d0⟩, d1⟩, h0⟩, h1⟩, mi0⟩, mi1⟩, s0⟩, s1⟩ := hrep
  obtain ⟨fY, vY⟩ := decimal_spec _ y0 y1
  obtain ⟨fMo, vMo⟩ := pad2_spec ((localtime c.creation).tm_mon + 1) (by omega) (by omega)
  obtain ⟨fD, vD⟩ := pad2_spec (localtime c.creation).tm_mday (by omega) (by omega)
  obtain ⟨fH, vH⟩ := pad2_spec (localtime c.creation).tm_hour (by omega) (by omega)
  obtain ⟨fMi, vMi⟩ := pad2_spec (localtime c.creation).tm_min (by omega) (by omega)
  obtain ⟨fS, vS⟩ := pad2_spec (localtime c.creation).tm_sec (by omega) (by omega)
  have htok : tokenize (c.str localtime) delimiters =
      [decimal ((localtime c.creation).tm_year + 1900),
       pad2 ((localtime c.creation).tm_mon + 1), pad2 (localtime c.creation).tm_mday,
       pad2 (localtime c.creation).tm_hour, pad2 (localtime c.creation).tm_min,
       pad2 (localtime c.creation).tm_sec] := by
    rw [str_eq_delimited]
    refine tokenize_delimited delimiters _ _ fY ?_
    intro p hp
    simp only [List.mem_cons, List.mem_singleton, List.not_mem_nil, or_false] at hp
    rcases hp with rfl | rfl | rfl | rfl | rfl
    · exact ⟨delimiterRun_spec ['-'] (by decide), fMo⟩
    · exact ⟨delimiterRun_spec ['-'] (by decide), fD⟩
    · exact ⟨delimiterRun_spec [' '] (by decide), fH⟩
    · exact ⟨delimiterRun_spec [':'] (by decide), fMi⟩
    · exact ⟨delimiterRun_spec [':'] (by decide), fS⟩
  have hfields : importedFields (tokenize (c.str localtime) delimiters)
      = { localtime c.creation with tm_isdst := -1 } := by
    rw [htok]
    simp only [importedFields, List.getD_cons_zero, List.getD_cons_succ, vY, vMo, vD, vH, vMi, vS]
    simp
  have hlen : 6 ≤ (tokenize (c.str localtime) delimiters).length := by
    rw [htok]
    exact le_refl 6
  rw [str_import_long mktime c1 _ now hlen, hfields]

/-! ## Calendar of a host in UTC: auxiliary facts -/

theorem yoe_core (doe e f g b c d : Int) (h0 : 0 ≤ doe) (h1 : doe ≤ 146096)
    (he : 1460 * e ≤ doe ∧ doe < 1460 * e + 1460)
    (hf : 36524 * f ≤ doe ∧ doe < 36524 * f + 36524)
    (hg : 146096 * g ≤ doe ∧ doe < 146096 * g + 146096)
    (hb : 365 * b ≤ doe - e + f - g ∧ doe - e + f - g < 365 * b + 365)
    (hc : 4 * c ≤ b ∧ b < 4 * c + 4)
    (hd : 100 * d ≤ b ∧ b < 100 * d + 100) :
    0 ≤ b ∧ b ≤ 399 ∧ 0 ≤ doe - (365 * b + c - d) ∧ doe - (365 * b + c - d) ≤ 365 := by
  have hf0 : 0 ≤ f := by omega
  have hf4 : f ≤ 4 := by omega
  have hg0 : 0 ≤ g := by omega
  have hg1 : g ≤ 1 := by omega
  have hd0 : 0 ≤ d := by omega
  have hd4 : d ≤ 4 := by omega
  interval_cases f <;> interval_cases g <;> interval_cases d <;> omega

/-- The year of the era and the day of the year that `localtimeUTC` computes
from the day of the era are in range. -/
theorem yoe_doy_range (doe : Int) (h0 : 0 ≤ doe) (h1 : doe ≤ 146096) :
    0 ≤ (doe - doe / 1460 + doe / 36524 - doe / 146096) / 365 ∧
    (doe - doe / 1460 + doe / 36524 - doe / 146096) / 365 ≤ 399 ∧
    0 ≤ doe - (365 * ((doe - doe / 1460 + doe / 36524 - doe / 146096) / 365)
      + (doe - doe / 1460 + doe / 36524 - doe / 146096) / 365 / 4
      - (doe - doe / 1460 + doe / 36524 - doe / 146096) / 365 / 100) ∧
    doe - (365 * ((doe - doe / 1460 + doe / 36524 - doe / 146096) / 365)
      + (doe - doe / 1460 + doe / 36524 - doe / 146096) / 365 / 4
      - (doe - doe / 1460 + doe / 36524 - doe / 146096) / 365 / 100) ≤ 365 :=
  yoe_core doe (doe / 1460) (doe / 36524) (doe / 146096)
    ((doe - doe / 1460 + doe / 36524 - doe / 146096) / 365)
    ((doe - doe / 1460 + doe / 36524 - doe / 146096) / 365 / 4)
    ((doe - doe / 1460 + doe / 36524 - doe / 146096) / 365 / 100) h0 h1
    (by omega) (by omega) (by omega) (by omega) (by omega) (by omega)

/-- Days before the month that `localtimeUTC` derives from the month index `mp`
(0 = March) of the year `yoe` of the era `era`. -/
theorem daysBeforeMonth_civil (era yoe mp : Int) (hy0 : 0 ≤ yoe) (hy1 : yoe ≤ 399)
    (hm0 : 0 ≤ mp) (hm1 : mp ≤ 11) :
    daysBeforeMonth
        (yoe + era * 400 + (if (if mp < 10 then mp + 3 else mp - 9) ≤ 2 then 1 else 0))
        ((if mp < 10 then mp + 3 else mp - 9) - 1)
      = era * 146097 + (yoe * 365 + yoe / 4 - yoe / 100 + (153 * mp + 2) / 5) - 719468 := by
  unfold daysBeforeMonth
  interval_cases mp <;> simp only [] <;> norm_num <;> omega

theorem utc_inverse (t : Int) : mktimeUTC { localtimeUTC t with tm_isdst := -1 } = t := by
  have hdoe0 : 0 ≤ t / 86400 + 719468 - (t / 86400 + 719468) / 146097 * 146097 := by omega
  have hdoe1 : t / 86400 + 719468 - (t / 86400 + 719468) / 146097 * 146097 ≤ 146096 := by omega
  obtain ⟨hy0, hy1, hd0, hd1⟩ := yoe_doy_range _ hdoe0 hdoe1
  simp only [mktimeUTC, localtimeUTC]
  generalize hdoe : t / 86400 + 719468 - (t / 86400 + 719468) / 146097 * 146097 = doe at *
  generalize hyoe : (doe - doe / 1460 + doe / 36524 - doe / 146096) / 365 = yoe at *
  generalize hdoy : doe - (365 * yoe + yoe / 4 - yoe / 100) = doy at *
  have hm0 : 0 ≤ (5 * doy + 2) / 153 := by omega
  have hm1 : (5 * doy + 2) / 153 ≤ 11 := by omega
  generalize hmp : (5 * doy + 2) / 153 = mp at *
  have hcivil := daysBeforeMonth_civil ((t / 86400 + 719468) / 146097) yoe mp hy0 hy1 hm0 hm1
  have hmon0 : 0 ≤ (if mp < 10 then mp + 3 else mp - 9) - 1 := by split_ifs <;> omega
  have hmon1 : (if mp < 10 then mp + 3 else mp - 9) - 1 ≤ 11 := by split_ifs <;> omega
  generalize hm : (if mp < 10 then mp + 3 else mp - 9) = m at *
  generalize hy : yoe + (t / 86400 + 719468) / 146097 * 400 + (if m ≤ 2 then 1 else 0) = y at *
  have e1 : (y - 1900 + 1900) * 12 + (m - 1) = y * 12 + (m - 1) := by ring
  have e2 : (y * 12 + (m - 1)) / 12 = y := by omega
  have e3 : (y * 12 + (m - 1)) % 12 = m - 1 := by omega
  rw [e1, e2, e3, hcivil]
  omega

/-- On a host in UTC the calendar fields of every instant from 1970 through the
year 9999 are representable. -/
theorem utc_representable (t : Int) (h0 : 0 ≤ t) (h1 : t ≤ 253402300799) :
    representable (localtimeUTC t) = true := by
  have hdoe0 : 0 ≤ t / 86400 + 719468 - (t / 86400 + 719468) / 146097 * 146097 := by omega
  have hdoe1 : t / 86400 + 719468 - (t / 86400 + 719468) / 146097 * 146097 ≤ 146096 := by omega
  obtain ⟨hy0, hy1, hd0, hd1⟩ := yoe_doy_range _ hdoe0 hdoe1
  have hera0 : 4 ≤ (t / 86400 + 719468) / 146097 := by omega
  have hera1 : (t / 86400 + 719468) / 146097 ≤ 24 := by omega
  simp only [representable, localtimeUTC, Bool.and_eq_true, decide_eq_true_eq]
  generalize (t / 86400 + 719468) / 146097 = era at *
  generalize t / 86400 + 719468 - era * 146097 = doe at *
  generalize (doe - doe / 1460 + doe / 36524 - doe / 146096) / 365 = yoe at *
  generalize doe - (365 * yoe + yoe / 4 - yoe / 100) = doy at *
  have hm0 : 0 ≤ (5 * doy + 2) / 153 := by omega
  have hm1 : (5 * doy + 2) / 153 ≤ 11 := by omega
  have hday0 : 1 ≤ doy - (153 * ((5 * doy + 2) / 153) + 2) / 5 + 1 := by omega
  have hday1 : doy - (153 * ((5 * doy + 2) / 153) + 2) / 5 + 1 ≤ 31 := by omega
  generalize (5 * doy + 2) / 153 = mp at *
  refine ⟨⟨⟨⟨⟨⟨⟨⟨⟨⟨⟨?_, ?_⟩, ?_⟩, ?_⟩, hday0⟩, hday1⟩, ?_⟩, ?_⟩, ?_⟩, ?_⟩, ?_⟩, ?_⟩
  all_goals omega

/-- The text that `rtc::str()` prints depends on the six calendar fields only. -/
theorem str_congr (localtime : Int → tm) (c c2 : rtc)
    (h : { localtime c.creation with tm_isdst := -1 }
      = { localtime c2.creation with tm_isdst := -1 }) :
    c.str localtime = c2.str localtime := by
  rw [str_eq_delimited, str_eq_delimited]
  have e := congrArg tm.tm_year h
  have e1 := congrArg tm.tm_mon h
  have e2 := congrArg tm.tm_mday h
  have e3 := congrArg tm.tm_hour h
  have e4 := congrArg tm.tm_min h
  have e5 := congrArg tm.tm_sec h
  simp only at e e1 e2 e3 e4 e5
  rw [e, e1, e2, e3, e4, e5]

/-- C17 as stated fails: on a host that sets its clocks back by one hour at the
instant 7200, the instants 5400 and 9000 are both after 1970 with representable
fields and both print `1970-01-01 02:30:00`, so whatever `mktime` returns, the
text read back cannot reproduce both. -/
theorem C17_round_trip_counterexample :
    representable (localtimeSetBack 5400) = true ∧
    representable (localtimeSetBack 9000) = true ∧
    (rtc.mk false 5400 ⟨⟨0, 0⟩, ⟨0, 0⟩⟩ 1).str localtimeSetBack
      = (rtc.mk false 9000 ⟨⟨0, 0⟩, ⟨0, 0⟩⟩ 1).str localtimeSetBack ∧
    ¬ (∀ (localtime : Int → tm) (mktime : tm → Int) (c : rtc), 0 ≤ c.creation →
        representable (localtime c.creation) = true →
        ∀ (c1 : rtc) (now : timeval),
          (c1.str_import mktime (c.str localtime) now).creation = c.creation) := by
  have hs : (rtc.mk false 5400 ⟨⟨0, 0⟩, ⟨0, 0⟩⟩ 1).str localtimeSetBack
      = (rtc.mk false 9000 ⟨⟨0, 0⟩, ⟨0, 0⟩⟩ 1).str localtimeSetBack :=
    str_congr localtimeSetBack _ _ (by decide)
  refine ⟨by decide, by decide, hs, fun hall => ?_⟩
  have a := hall localtimeSetBack mktimeUTC (rtc.mk false 5400 ⟨⟨0, 0⟩, ⟨0, 0⟩⟩ 1)
    (by decide) (by decide) (rtc.ctor 0 ⟨0, 0⟩) ⟨0, 0⟩
  have b := hall localtimeSetBack mktimeUTC (rtc.mk false 9000 ⟨⟨0, 0⟩, ⟨0, 0⟩⟩ 1)
    (by decide) (by decide) (rtc.ctor 0 ⟨0, 0⟩) ⟨0, 0⟩
  rw [hs] at a
  rw [a] at b
  exact absurd b (by decide)

/-- C17, amended: the text of `rtc::str()` for an anchor with representable
calendar fields, read by `rtc::str( import )` into any clock, sets the anchor
that the host's `mktime` returns for these six fields with `tm_isdst = -1`; two
anchors with the same six fields therefore give the same result.  On a host in
UTC the result is the exported anchor itself, for every instant from 1970
through the year 9999. -/
theorem C17_round_trip_amended :
    (∀ (localtime : Int → tm) (mktime : tm → Int) (c : rtc),
      representable (localtime c.creation) = true →
      ∀ (c1 : rtc) (now : timeval),
        (c1.str_import mktime (c.str localtime) now).creation
          = mktime { localtime c.creation with tm_isdst := -1 } ∧
        (rtc.ctor_import mktime (c.str localtime) now).creation
          = mktime { localtime c.creation with tm_isdst := -1 } ∧
        ∀ c2 : rtc, { localtime c2.creation with tm_isdst := -1 }
            = { localtime c.creation with tm_isdst := -1 } →
          (c1.str_import mktime (c2.str localtime) now).creation
            = (c1.str_import mktime (c.str localtime) now).creation) ∧
    (∀ c : rtc, 0 ≤ c.creation → c.creation ≤ 253402300799 →
      ∀ (c1 : rtc) (now : timeval),
        (c1.str_import mktimeUTC (c.str localtimeUTC) now).creation = c.creation ∧
        (rtc.ctor_import mktimeUTC (c.str localtimeUTC) now).creation = c.creation) := by
  constructor
  · intro localtime mktime c hrep c1 now
    refine ⟨import_of_export localtime mktime c hrep c1 now,
      import_of_export localtime mktime c hrep _ now, fun c2 h => ?_⟩
    rw [str_congr localtime c2 c h]
  · intro c h0 h1 c1 now
    have hrep := utc_representable c.creation h0 h1
    have hinv := utc_inverse c.creation
    exact ⟨(import_of_export localtimeUTC mktimeUTC c hrep c1 now).trans hinv,
      (import_of_export localtimeUTC mktimeUTC c hrep _ now).trans hinv⟩

/-- C17, amended, on a host in UTC for the anchor 1600000000, the text
`2020-09-13 12:26:40`. -/
theorem C17_round_trip_amended_witness :
    ((rtc.ctor 5 ⟨0, 0⟩).str_import mktimeUTC
        ((rtc.mk false 1600000000 ⟨⟨0, 0⟩, ⟨0, 0⟩⟩ 1).str localtimeUTC) ⟨7, 0⟩).creation
      = 1600000000 :=
  (C17_round_trip_amended.2 (rtc.mk false 1600000000 ⟨⟨0, 0⟩, ⟨0, 0⟩⟩ 1)
    (by decide) (by decide) (rtc.ctor 5 ⟨0, 0⟩) ⟨7, 0⟩).1

/-! ## Names of the curves: the claim -/

theorem ofIdentifier_identifier (k : TYPE) : TYPE.ofIdentifier k.identifier = some k := by
  cases k <;> decide

/-- C19: `str( type )` is total; it maps the value of every enumerator to the
identifier of that enumerator, different enumerators get different names, and
every value that is no enumerator gets the fallback name `UNDEFINED`. -/
theorem C19_names (E : TypeEnum) :
    (∀ k : TYPE, str E (E.val k) = k.identifier) ∧
    (∀ j k : TYPE, str E (E.val j) = str E (E.val k) → j = k) ∧
    (∀ j k : TYPE, E.val j ≠ E.val k → str E (E.val j) ≠ str E (E.val k)) ∧
    (∀ n : Int, (∀ k : TYPE, E.val k ≠ n) → str E n = "UNDEFINED") := by
  have hid : ∀ k : TYPE, str E (E.val k) = k.identifier := by
    intro k
    unfold str
    rw [classify_val]
    cases k <;> rfl
  have hinj : ∀ j k : TYPE, str E (E.val j) = str E (E.val k) → j = k := by
    intro j k h
    rw [hid, hid] at h
    have h2 := congrArg TYPE.ofIdentifier h
    rw [ofIdentifier_identifier, ofIdentifier_identifier] at h2
    exact Option.some.inj h2
  refine ⟨hid, hinj, fun j k hne h => hne (congrArg E.val (hinj j k h)), ?_⟩
  intro n hn
  unfold str
  rw [classify_none E n hn]

/-- C19 for the sample numbering: the value of `QUADOUT_01`, and the values 77
and -1, which are no enumerators. -/
theorem C19_names_witness :
    str sampleEnum (sampleEnum.val .QUADOUT_01) = "QUADOUT_01" ∧
    str sampleEnum 77 = "UNDEFINED" ∧ str sampleEnum (-1) = "UNDEFINED" :=
  ⟨(C19_names sampleEnum).1 .QUADOUT_01,
   (C19_names sampleEnum).2.2.2 77 (by
      intro k
      cases k <;> decide),
   (C19_names sampleEnum).2.2.2 (-1) (by
      intro k
      show ((k.toCtorIdx : Nat) : Int) ≠ -1
      omega)⟩

/-! ## Memoized power curves: auxiliary facts -/

theorem tween_power_in (E : TypeEnum) (m : Libm) (x : ℚ) (h0 : 0 ≤ x) (h1 : x ≤ 1) :
    tween E m (E.val .QUADIN_01) x = x ^ 2 ∧ tween E m (E.val .CUBICIN_01) x = x ^ 3 ∧
    tween E m (E.val .QUARTIN_01) x = x ^ 4 ∧ tween E m (E.val .QUINTIN_01) x = x ^ 5 := by
  rcases eq_or_lt_of_le h0 with rfl | hpos
  · simp [tween_nonpos]
  rcases eq_or_lt_of_le h1 with rfl | hlt
  · simp [tween_one_le]
  simp only [tween_interior E m _ x hpos hlt, classify_val, tweenCase]
  refine ⟨?_, ?_, ?_, ?_⟩ <;> ring

theorem tween_power_out (E : TypeEnum) (m : Libm) (x : ℚ) (h0 : 0 ≤ x) (h1 : x ≤ 1) :
    tween E m (E.val .QUADOUT_01) x = 1 - (1 - x) ^ 2 ∧
    tween E m (E.val .CUBICOUT_01) x = 1 - (1 - x) ^ 3 ∧
    tween E m (E.val .QUARTOUT_01) x = 1 - (1 - x) ^ 4 ∧
    tween E m (E.val .QUINTOUT_01) x = 1 - (1 - x) ^ 5 := by
  rcases eq_or_lt_of_le h0 with rfl | hpos
  · simp [tween_nonpos]
  rcases eq_or_lt_of_le h1 with rfl | hlt
  · simp [tween_one_le]
  simp only [tween_interior E m _ x hpos hlt, classify_val, tweenCase]
  refine ⟨?_, ?_, ?_, ?_⟩ <;> ring

theorem abs_pow_sub_pow_le_mul (n : Nat) (x y : ℚ) (hx0 : 0 ≤ x) (hx1 : x ≤ 1) (hy0 : 0 ≤ y)
    (hy1 : y ≤ 1) : |y ^ n - x ^ n| ≤ n * |y - x| := by
  induction n with
  | zero => simp
  | succ n ih =>
    have e : y ^ (n + 1) - x ^ (n + 1) = y ^ n * (y - x) + x * (y ^ n - x ^ n) := by ring
    have hyn : |y ^ n| ≤ 1 := by
      rw [abs_of_nonneg (pow_nonneg hy0 n)]
      exact pow_le_one₀ hy0 hy1
    have hxa : |x| ≤ 1 := by
      rw [abs_of_nonneg hx0]
      exact hx1
    calc |y ^ (n + 1) - x ^ (n + 1)|
        = |y ^ n * (y - x) + x * (y ^ n - x ^ n)| := by rw [e]
      _ ≤ |y ^ n * (y - x)| + |x * (y ^ n - x ^ n)| := abs_add _ _
      _ = |y ^ n| * |y - x| + |x| * |y ^ n - x ^ n| := by rw [abs_mul, abs_mul]
      _ ≤ 1 * |y - x| + 1 * (n * |y - x|) := by
          apply add_le_add
          · exact mul_le_mul_of_nonneg_right hyn (abs_nonneg _)
          · exact mul_le_mul hxa ih (abs_nonneg _) zero_le_one
      _ = ((n + 1 : Nat) : ℚ) * |y - x| := by
          push_cast
          ring

/-- The two sample indices of a phase and of its mirror image add up to 254 or
to 255. -/
theorem specIndex_mirror (p : ℚ) (h0 : 0 ≤ p) (h1 : p ≤ 1) :
    specIndex p + specIndex (1 - p) = 255 ∨ specIndex p + specIndex (1 - p) = 254 := by
  rw [specIndex_mid p h0 h1, specIndex_mid (1 - p) (by linarith) (by linarith)]
  have e : (1 - p) * 255 = -(p * 255) + ((255 : Int) : ℚ) := by
    push_cast
    ring
  rw [e, Int.floor_add_int]
  have l1 := Int.floor_le (p * 255)
  have l2 := Int.lt_floor_add_one (p * 255)
  have l3 := Int.floor_le (-(p * 255))
  have l4 := Int.lt_floor_add_one (-(p * 255))
  have hsum : -1 ≤ ⌊p * 255⌋ + ⌊-(p * 255)⌋ ∧ ⌊p * 255⌋ + ⌊-(p * 255)⌋ ≤ 0 := by
    constructor
    · have : ((-2 : Int) : ℚ) < ((⌊p * 255⌋ + ⌊-(p * 255)⌋ : Int) : ℚ) := by
        push_cast
        linarith
      have := Int.cast_lt.mp this
      omega
    · have : ((⌊p * 255⌋ + ⌊-(p * 255)⌋ : Int) : ℚ) ≤ ((0 : Int) : ℚ) := by
        push_cast
        linarith
      exact Int.cast_le.mp this
  omega

/-- The memoized "in" value at a phase and one minus the memoized "out" value at
the mirrored phase are the "in" curve at the same or at adjacent samples. -/
theorem memo_symmetry (E : TypeEnum) (m : Libm) (tyin tyout : TYPE) (n : Nat)
    (hin : ∀ x : ℚ, 0 ≤ x → x ≤ 1 → tween E m (E.val tyin) x = x ^ n)
    (hout : ∀ x : ℚ, 0 ≤ x → x ≤ 1 → tween E m (E.val tyout) x = 1 - (1 - x) ^ n)
    (li lo : List ℚ) (hli : li = [] ∨ li = specTable E m tyin)
    (hlo : lo = [] ∨ lo = specTable E m tyout) (p : ℚ) (h0 : 0 ≤ p) (h1 : p ≤ 1) :
    ∃ a b : ℚ, (with_ E m tyin li p).1 = some a ∧ (with_ E m tyout lo (1 - p)).1 = some b ∧
      |a - (1 - b)| ≤ (n : ℚ) / 255 := by
  obtain ⟨hI0, hI1⟩ := specIndex_bounds p
  obtain ⟨hJ0, hJ1⟩ := specIndex_bounds (1 - p)
  have hsum := specIndex_mirror p h0 h1
  have cI : (((specIndex p).toNat : Nat) : ℚ) = ((specIndex p : Int) : ℚ) := by
    exact_mod_cast Int.toNat_of_nonneg hI0
  have cJ : (((specIndex (1 - p)).toNat : Nat) : ℚ) = ((specIndex (1 - p) : Int) : ℚ) := by
    exact_mod_cast Int.toNat_of_nonneg hJ0
  have qI0 : (0 : ℚ) ≤ ((specIndex p : Int) : ℚ) := by exact_mod_cast hI0
  have qI1 : ((specIndex p : Int) : ℚ) ≤ 255 := by exact_mod_cast hI1
  have qJ0 : (0 : ℚ) ≤ ((specIndex (1 - p) : Int) : ℚ) := by exact_mod_cast hJ0
  have qJ1 : ((specIndex (1 - p) : Int) : ℚ) ≤ 255 := by exact_mod_cast hJ1
  have x0 : (0 : ℚ) ≤ ((specIndex p : Int) : ℚ) / 255 := by positivity
  have x1 : ((specIndex p : Int) : ℚ) / 255 ≤ 1 := by
    rw [div_le_one (by norm_num)]
    exact qI1
  have y0 : (0 : ℚ) ≤ ((specIndex (1 - p) : Int) : ℚ) / 255 := by positivity
  have y1 : ((specIndex (1 - p) : Int) : ℚ) / 255 ≤ 1 := by
    rw [div_le_one (by norm_num)]
    exact qJ1
  refine ⟨_, _, with_spec E m tyin li hli p, with_spec E m tyout lo hlo (1 - p), ?_⟩
  · rw [cI, cJ, hin _ x0 x1, hout _ y0 y1, sub_sub_cancel]
    have hb := abs_pow_sub_pow_le_mul n (1 - ((specIndex (1 - p) : Int) : ℚ) / 255)
      (((specIndex p : Int) : ℚ) / 255) (by linarith) (by linarith) x0 x1
    have hd : |((specIndex p : Int) : ℚ) / 255 - (1 - ((specIndex (1 - p) : Int) : ℚ) / 255)|
        ≤ 1 / 255 := by
      have e : ((specIndex p : Int) : ℚ) / 255 - (1 - ((specIndex (1 - p) : Int) : ℚ) / 255)
          = (((specIndex p + specIndex (1 - p) - 255 : Int)) : ℚ) / 255 := by
        push_cast
        ring
      rw [e, abs_div, abs_of_pos (by norm_num : (0 : ℚ) < 255)]
      apply div_le_div_of_nonneg_right _ (by norm_num)
      rcases hsum with h | h <;> rw [h] <;> norm_num
    calc |(((specIndex p : Int) : ℚ) / 255) ^ n - (1 - ((specIndex (1 - p) : Int) : ℚ) / 255) ^ n|
        ≤ (n : ℚ) * |((specIndex p : Int) : ℚ) / 255
            - (1 - ((specIndex (1 - p) : Int) : ℚ) / 255)| := hb
      _ ≤ (n : ℚ) * (1 / 255) := mul_le_mul_of_nonneg_left hd (Nat.cast_nonneg n)
      _ = (n : ℚ) / 255 := by ring

theorem powerFamilies_with (E : TypeEnum) (m : Libm) :
    ∀ f ∈ powerFamilies E m, ∃ tyin tyout : TYPE,
      f.1 = with_ E m tyin ∧ f.2.1 = with_ E m tyout ∧
      (∀ x : ℚ, 0 ≤ x → x ≤ 1 → tween E m (E.val tyin) x = x ^ f.2.2) ∧
      (∀ x : ℚ, 0 ≤ x → x ≤ 1 → tween E m (E.val tyout) x = 1 - (1 - x) ^ f.2.2) := by
  intro f hf
  simp only [powerFamilies, List.mem_cons, List.mem_singleton, List.not_mem_nil, or_false] at hf
  rcases hf with rfl | rfl | rfl | rfl
  · exact ⟨.QUADIN_01, .QUADOUT_01, rfl, rfl,
      fun x a b => (tween_power_in E m x a b).1, fun x a b => (tween_power_out E m x a b).1⟩
  · exact ⟨.CUBICIN_01, .CUBICOUT_01, rfl, rfl,
      fun x a b => (tween_power_in E m x a b).2.1, fun x a b => (tween_power_out E m x a b).2.1⟩
  · exact ⟨.QUARTIN_01, .QUARTOUT_01, rfl, rfl,
      fun x a b => (tween_power_in E m x a b).2.2.1,
      fun x a b => (tween_power_out E m x a b).2.2.1⟩
  · exact ⟨.QUINTIN_01, .QUINTOUT_01, rfl, rfl,
      fun x a b => (tween_power_in E m x a b).2.2.2,
      fun x a b => (tween_power_out E m x a b).2.2.2⟩

/-- C20 as stated fails: at phase 1/2, on their first calls, `quadin` returns
16129/65025 and `quadout` returns 48641/65025, so `quadin(1/2)` and
`1 - quadout(1 - 1/2)` differ by 1/255, far more than 1e-5. -/
theorem C20_memoized_symmetry_counterexample :
    (quadin sampleEnum sampleLibm [] (1 / 2)).1 = some (16129 / 65025) ∧
    (quadout sampleEnum sampleLibm [] (1 - 1 / 2)).1 = some (48641 / 65025) ∧
    ¬ (∀ (E : TypeEnum) (m : Libm) (p a b : ℚ), 0 ≤ p → p ≤ 1 →
        (quadin E m [] p).1 = some a → (quadout E m [] (1 - p)).1 = some b →
        |a - (1 - b)| ≤ 1 / 100000) := by
  have hfl : ⌊(1 / 2 : ℚ) * 255⌋.toNat = 127 := by
    have : ⌊(1 / 2 : ℚ) * 255⌋ = 127 := by norm_num [Int.floor_eq_iff]
    rw [this]
    rfl
  have hx0 : (0 : ℚ) ≤ ((127 : Nat) : ℚ) / 255 := by norm_num
  have hx1 : ((127 : Nat) : ℚ) / 255 ≤ 1 := by norm_num
  have hin : (quadin sampleEnum sampleLibm [] (1 / 2)).1 = some (16129 / 65025) := by
    show (with_ sampleEnum sampleLibm .QUADIN_01 [] (1 / 2)).1 = _
    rw [with_value _ _ _ _ (Or.inl rfl)]
    have n0 : ¬ ((1 / 2 : ℚ) < 0) := by norm_num
    have n1 : ¬ ((1 : ℚ) ≤ 1 / 2) := by norm_num
    simp only [n0, n1, if_false, hfl, (tween_power_in sampleEnum sampleLibm _ hx0 hx1).1]
    norm_num
  have hout : (quadout sampleEnum sampleLibm [] (1 - 1 / 2)).1 = some (48641 / 65025) := by
    show (with_ sampleEnum sampleLibm .QUADOUT_01 [] (1 - 1 / 2)).1 = _
    rw [with_value _ _ _ _ (Or.inl rfl)]
    have e : (1 - 1 / 2 : ℚ) = 1 / 2 := by norm_num
    have n0 : ¬ ((1 / 2 : ℚ) < 0) := by norm_num
    have n1 : ¬ ((1 : ℚ) ≤ 1 / 2) := by norm_num
    simp only [e, n0, n1, if_false, hfl, (tween_power_out sampleEnum sampleLibm _ hx0 hx1).1]
    norm_num
  refine ⟨hin, hout, fun hall => ?_⟩
  have h := hall sampleEnum sampleLibm (1 / 2) _ _ (by norm_num) (by norm_num) hin hout
  norm_num [abs_le] at h

/-- C20, amended: for the memoized evaluators of each power family, whatever the
state of their tables, and every phase in [0,1], `in(phase)` equals
`1 - out(1 - phase)` within a tolerance of `degree/255` (2/255 quadratic, 3/255
cubic, 4/255 quartic, 5/255 quintic): the two are values of the curve at the
same or at adjacent samples of the table. -/
theorem C20_memoized_symmetry_amended (E : TypeEnum) (m : Libm) :
    ∀ f ∈ powerFamilies E m, ∀ li lo : List ℚ, LutReachable f.1 li → LutReachable f.2.1 lo →
      ∀ p : ℚ, 0 ≤ p → p ≤ 1 →
        ∃ a b : ℚ, (f.1 li p).1 = some a ∧ (f.2.1 lo (1 - p)).1 = some b ∧
          |a - (1 - b)| ≤ (f.2.2 : ℚ) / 255 := by
  intro f hf li lo hli hlo p h0 h1
  obtain ⟨tyin, tyout, e1, e2, hin, hout⟩ := powerFamilies_with E m f hf
  rw [e1] at hli ⊢
  rw [e2] at hlo ⊢
  exact memo_symmetry E m tyin tyout f.2.2 hin hout li lo (lut_cases E m tyin li hli)
    (lut_cases E m tyout lo hlo) p h0 h1

/-- C20, amended, for `cubicin` and `cubicout` on their first calls at phase 1/2. -/
theorem C20_memoized_symmetry_amended_witness :
    ∃ a b : ℚ, (cubicin sampleEnum sampleLibm [] (1 / 2)).1 = some a ∧
      (cubicout sampleEnum sampleLibm [] (1 - 1 / 2)).1 = some b ∧
      |a - (1 - b)| ≤ ((3 : Nat) : ℚ) / 255 :=
  C20_memoized_symmetry_amended sampleEnum sampleLibm
    (cubicin sampleEnum sampleLibm, cubicout sampleEnum sampleLibm, 3)
    (by simp [powerFamilies]) [] [] .start .start (1 / 2) (by norm_num) (by norm_num)

/-! ## Power, bounce, back and elastic curves: auxiliary facts -/

theorem tween_power_inout (E : TypeEnum) (m : Libm) (x : ℚ) (h0 : 0 < x) (h1 : x < 1) :
    tween E m (E.val .QUADINOUT_01) x
      = (if 2 * x < 1 then (2 * x) ^ 2 / 2 else 1 - (2 - 2 * x) ^ 2 / 2) ∧
    tween E m (E.val .CUBICINOUT_01) x
      = (if 2 * x < 1 then (2 * x) ^ 3 / 2 else 1 - (2 - 2 * x) ^ 3 / 2) ∧
    tween E m (E.val .QUARTINOUT_01) x
      = (if 2 * x < 1 then (2 * x) ^ 4 / 2 else 1 - (2 - 2 * x) ^ 4 / 2) ∧
    tween E m (E.val .QUINTINOUT_01) x
      = (if 2 * x < 1 then (2 * x) ^ 5 / 2 else 1 - (2 - 2 * x) ^ 5 / 2) := by
  have e : x / (1 / 2) = 2 * x := by ring
  simp only [tween_interior E m _ x h0 h1, classify_val, tweenCase, e]
  refine ⟨?_, ?_, ?_, ?_⟩ <;> split_ifs <;> ring

/-- The in-out curve of a power family is the in curve on the first half and the
out curve on the second half, each scaled by 1/2. -/
theorem power_inout_composite (E : TypeEnum) (m : Libm) (tin tout tinout : TYPE) (n : Nat)
    (hin : ∀ x : ℚ, 0 ≤ x → x ≤ 1 → tween E m (E.val tin) x = x ^ n)
    (hout : ∀ x : ℚ, 0 ≤ x → x ≤ 1 → tween E m (E.val tout) x = 1 - (1 - x) ^ n)
    (hio : ∀ x : ℚ, 0 < x → x < 1 → tween E m (E.val tinout) x
      = (if 2 * x < 1 then (2 * x) ^ n / 2 else 1 - (2 - 2 * x) ^ n / 2))
    (p : ℚ) (h0 : 0 < p) (h1 : p < 1) :
    (p < 1 / 2 → tween E m (E.val tinout) p = tween E m (E.val tin) (2 * p) / 2) ∧
    (1 / 2 ≤ p → tween E m (E.val tinout) p = 1 / 2 + tween E m (E.val tout) (2 * p - 1) / 2) := by
  constructor
  · intro hp
    have h2 : 2 * p < 1 := by linarith
    rw [hio p h0 h1, if_pos h2, hin (2 * p) (by linarith) (by linarith)]
  · intro hp
    have h2 : ¬ 2 * p < 1 := by linarith
    rw [hio p h0 h1, if_neg h2, hout (2 * p - 1) (by linarith) (by linarith)]
    ring

/-- C25: for the quadratic, cubic, quartic and quintic families and every phase
`p` in (0,1), the in-out curve is `tween(XIN, 2p)/2` for `p < 1/2` and
`1/2 + tween(XOUT, 2p - 1)/2` for `p ≥ 1/2`; at `p = 1/2` it is 1/2. -/
theorem C25_inout_composite (E : TypeEnum) (m : Libm) :
    ∀ f ∈ powerCurves, ∀ p : ℚ, 0 < p → p < 1 →
      (p < 1 / 2 → tween E m (E.val f.2.2) p = tween E m (E.val f.1) (2 * p) / 2) ∧
      (1 / 2 ≤ p →
        tween E m (E.val f.2.2) p = 1 / 2 + tween E m (E.val f.2.1) (2 * p - 1) / 2) ∧
      tween E m (E.val f.2.2) (1 / 2) = 1 / 2 := by
  have key : ∀ (tin tout tinout : TYPE) (n : Nat),
      (∀ x : ℚ, 0 ≤ x → x ≤ 1 → tween E m (E.val tin) x = x ^ n) →
      (∀ x : ℚ, 0 ≤ x → x ≤ 1 → tween E m (E.val tout) x = 1 - (1 - x) ^ n) →
      (∀ x : ℚ, 0 < x → x < 1 → tween E m (E.val tinout) x
        = (if 2 * x < 1 then (2 * x) ^ n / 2 else 1 - (2 - 2 * x) ^ n / 2)) →
      ∀ p : ℚ, 0 < p → p < 1 →
        (p < 1 / 2 → tween E m (E.val tinout) p = tween E m (E.val tin) (2 * p) / 2) ∧
        (1 / 2 ≤ p →
          tween E m (E.val tinout) p = 1 / 2 + tween E m (E.val tout) (2 * p - 1) / 2) ∧
        tween E m (E.val tinout) (1 / 2) = 1 / 2 := by
    intro tin tout tinout n hin hout hio p h0 h1
    have hc := power_inout_composite E m tin tout tinout n hin hout hio p h0 h1
    have hh := (power_inout_composite E m tin tout tinout n hin hout hio (1 / 2) (by norm_num)
      (by norm_num)).2 le_rfl
    refine ⟨hc.1, hc.2, ?_⟩
    rw [hh, hout _ (by norm_num) (by norm_num)]
    cases n with
    | zero =>
      have := hin 0 le_rfl (by norm_num)
      rw [tween_nonpos E m _ 0 le_rfl] at this
      norm_num at this
    | succ n => norm_num
  intro f hf
  simp only [powerCurves, List.mem_cons, List.mem_singleton, List.not_mem_nil, or_false] at hf
  rcases hf with rfl | rfl | rfl | rfl
  · exact key _ _ _ 2 (fun x a b => (tween_power_in E m x a b).1)
      (fun x a b => (tween_power_out E m x a b).1) (fun x a b => (tween_power_inout E m x a b).1)
  · exact key _ _ _ 3 (fun x a b => (tween_power_in E m x a b).2.1)
      (fun x a b => (tween_power_out E m x a b).2.1)
      (fun x a b => (tween_power_inout E m x a b).2.1)
  · exact key _ _ _ 4 (fun x a b => (tween_power_in E m x a b).2.2.1)
      (fun x a b => (tween_power_out E m x a b).2.2.1)
      (fun x a b => (tween_power_inout E m x a b).2.2.1)
  · exact key _ _ _ 5 (fun x a b => (tween_power_in E m x a b).2.2.2)
      (fun x a b => (tween_power_out E m x a b).2.2.2)
      (fun x a b => (tween_power_inout E m x a b).2.2.2)

/-- C25 for the cubic family at phases 1/4 and 3/4. -/
theorem C25_inout_composite_witness :
    tween sampleEnum sampleLibm (sampleEnum.val .CUBICINOUT_01) (1 / 4)
      = tween sampleEnum sampleLibm (sampleEnum.val .CUBICIN_01) (2 * (1 / 4)) / 2 ∧
    tween sampleEnum sampleLibm (sampleEnum.val .CUBICINOUT_01) (3 / 4)
      = 1 / 2 + tween sampleEnum sampleLibm (sampleEnum.val .CUBICOUT_01) (2 * (3 / 4) - 1) / 2 :=
  ⟨(C25_inout_composite sampleEnum sampleLibm (.CUBICIN_01, .CUBICOUT_01, .CUBICINOUT_01)
      (by simp [powerCurves]) (1 / 4) (by norm_num) (by norm_num)).1 (by norm_num),
   (C25_inout_composite sampleEnum sampleLibm (.CUBICIN_01, .CUBICOUT_01, .CUBICINOUT_01)
      (by simp [powerCurves]) (3 / 4) (by norm_num) (by norm_num)).2.1 (by norm_num)⟩

theorem BOUNCE_range (t : ℚ) (h0 : 0 ≤ t) (h1 : t ≤ 1) : 0 ≤ BOUNCE t 1 ∧ BOUNCE t 1 ≤ 1 := by
  unfold BOUNCE
  simp only [div_one]
  split_ifs with a b c
  · norm_num at a ⊢
    constructor <;> nlinarith
  · norm_num at a b ⊢
    constructor <;> nlinarith
  · norm_num at a b c ⊢
    constructor <;> nlinarith
  · norm_num at a b c ⊢
    constructor <;> nlinarith

theorem tween_bounce_range (E : TypeEnum) (m : Libm) (x : ℚ) (h0 : 0 ≤ x) (h1 : x ≤ 1) :
    (0 ≤ tween E m (E.val .BOUNCEIN_01) x ∧ tween E m (E.val .BOUNCEIN_01) x ≤ 1) ∧
    (0 ≤ tween E m (E.val .BOUNCEOUT_01) x ∧ tween E m (E.val .BOUNCEOUT_01) x ≤ 1) ∧
    (0 ≤ tween E m (E.val .BOUNCEINOUT_01) x ∧ tween E m (E.val .BOUNCEINOUT_01) x ≤ 1) := by
  rcases eq_or_lt_of_le h0 with rfl | hpos
  · simp [tween_nonpos]
  rcases eq_or_lt_of_le h1 with rfl | hlt
  · simp [tween_one_le]
  simp only [tween_interior E m _ x hpos hlt, classify_val, tweenCase]
  refine ⟨?_, ?_, ?_⟩
  · have h := BOUNCE_range (1 - x) (by linarith) (by linarith)
    constructor <;> linarith [h.1, h.2]
  · exact BOUNCE_range x h0 h1
  · split_ifs with hh
    · have h := BOUNCE_range (1 - x * 2) (by linarith) (by linarith)
      constructor <;> linarith [h.1, h.2]
    · have hh' : 1 / 2 ≤ x := by linarith
      have h := BOUNCE_range (x * 2 - 1) (by linarith) (by linarith)
      constructor <;> linarith [h.1, h.2]

theorem unit_pow_range (n : Nat) (x : ℚ) (h0 : 0 ≤ x) (h1 : x ≤ 1) : 0 ≤ x ^ n ∧ x ^ n ≤ 1 :=
  ⟨pow_nonneg h0 n, pow_le_one₀ h0 h1⟩

theorem tween_power_range (E : TypeEnum) (m : Libm) (tin tout tinout : TYPE) (n : Nat)
    (hin : ∀ x : ℚ, 0 ≤ x → x ≤ 1 → tween E m (E.val tin) x = x ^ n)
    (hout : ∀ x : ℚ, 0 ≤ x → x ≤ 1 → tween E m (E.val tout) x = 1 - (1 - x) ^ n)
    (hio : ∀ x : ℚ, 0 < x → x < 1 → tween E m (E.val tinout) x
      = (if 2 * x < 1 then (2 * x) ^ n / 2 else 1 - (2 - 2 * x) ^ n / 2))
    (x : ℚ) (h0 : 0 ≤ x) (h1 : x ≤ 1) :
    (0 ≤ tween E m (E.val tin) x ∧ tween E m (E.val tin) x ≤ 1) ∧
    (0 ≤ tween E m (E.val tout) x ∧ tween E m (E.val tout) x ≤ 1) ∧
    (0 ≤ tween E m (E.val tinout) x ∧ tween E m (E.val tinout) x ≤ 1) := by
  refine ⟨?_, ?_, ?_⟩
  · rw [hin x h0 h1]
    exact unit_pow_range n x h0 h1
  · rw [hout x h0 h1]
    have h := unit_pow_range n (1 - x) (by linarith) (by linarith)
    constructor <;> linarith [h.1, h.2]
  · rcases eq_or_lt_of_le h0 with rfl | hpos
    · simp [tween_nonpos]
    rcases eq_or_lt_of_le h1 with rfl | hlt
    · simp [tween_one_le]
    rw [hio x hpos hlt]
    split_ifs with hh
    · have h := unit_pow_range n (2 * x) (by linarith) (by linarith)
      constructor <;> linarith [h.1, h.2]
    · have h := unit_pow_range n (2 - 2 * x) (by linarith) (by linarith)
      constructor <;> linarith [h.1, h.2]

/-- C21: for every phase in [0,1] each of the quadratic, cubic, quartic and
quintic in, out and in-out curves and of the three bounce curves returns a
value in [0,1]; the back curves leave that range: at phase 1/2 `BACKIN_01` is
below 0 and `BACKOUT_01` above 1. -/
theorem C21_range_bound (E : TypeEnum) (m : Libm) :
    (∀ ty ∈ rangeBound, ∀ phase : ℚ, 0 ≤ phase → phase ≤ 1 →
      0 ≤ tween E m (E.val ty) phase ∧ tween E m (E.val ty) phase ≤ 1) ∧
    (∃ phase : ℚ, 0 < phase ∧ phase < 1 ∧ tween E m (E.val .BACKIN_01) phase < 0) ∧
    (∃ phase : ℚ, 0 < phase ∧ phase < 1 ∧ 1 < tween E m (E.val .BACKOUT_01) phase) := by
  refine ⟨?_, ⟨1 / 2, by norm_num, by norm_num, ?_⟩, ⟨1 / 2, by norm_num, by norm_num, ?_⟩⟩
  · intro ty hty x h0 h1
    have q := tween_power_range E m .QUADIN_01 .QUADOUT_01 .QUADINOUT_01 2
      (fun x a b => (tween_power_in E m x a b).1) (fun x a b => (tween_power_out E m x a b).1)
      (fun x a b => (tween_power_inout E m x a b).1) x h0 h1
    have c := tween_power_range E m .CUBICIN_01 .CUBICOUT_01 .CUBICINOUT_01 3
      (fun x a b => (tween_power_in E m x a b).2.1)
      (fun x a b => (tween_power_out E m x a b).2.1)
      (fun x a b => (tween_power_inout E m x a b).2.1) x h0 h1
    have r := tween_power_range E m .QUARTIN_01 .QUARTOUT_01 .QUARTINOUT_01 4
      (fun x a b => (tween_power_in E m x a b).2.2.1)
      (fun x a b => (tween_power_out E m x a b).2.2.1)
      (fun x a b => (tween_power_inout E m x a b).2.2.1) x h0 h1
    have u := tween_power_range E m .QUINTIN_01 .QUINTOUT_01 .QUINTINOUT_01 5
      (fun x a b => (tween_power_in E m x a b).2.2.2)
      (fun x a b => (tween_power_out E m x a b).2.2.2)
      (fun x a b => (tween_power_inout E m x a b).2.2.2) x h0 h1
    have b := tween_bounce_range E m x h0 h1
    simp only [rangeBound, List.mem_cons, List.mem_singleton, List.not_mem_nil, or_false] at hty
    rcases hty with rfl | rfl | rfl | rfl | rfl | rfl | rfl | rfl | rfl | rfl | rfl | rfl | rfl |
      rfl | rfl
    · exact q.1
    · exact q.2.1
    · exact q.2.2
    · exact c.1
    · exact c.2.1
    · exact c.2.2
    · exact r.1
    · exact r.2.1
    · exact r.2.2
    · exact u.1
    · exact u.2.1
    · exact u.2.2
    · exact b.1
    · exact b.2.1
    · exact b.2.2
  · rw [tween_interior E m _ (1 / 2) (by norm_num) (by norm_num), classify_val]
    norm_num [tweenCase]
  · rw [tween_interior E m _ (1 / 2) (by norm_num) (by norm_num), classify_val]
    norm_num [tweenCase]

/-- C21 for `BOUNCEOUT_01` at phase 9/10. -/
theorem C21_range_bound_witness :
    0 ≤ tween sampleEnum sampleLibm (sampleEnum.val .BOUNCEOUT_01) (9 / 10) ∧
    tween sampleEnum sampleLibm (sampleEnum.val .BOUNCEOUT_01) (9 / 10) ≤ 1 :=
  (C21_range_bound sampleEnum sampleLibm).1 .BOUNCEOUT_01 (by simp [rangeBound]) (9 / 10)
    (by norm_num) (by norm_num)

/-- C22: for every phase `p` in (0,1) the back curves are the standard formulas
with `s = 1.70158`: `BACKIN(p) = p*p*((s+1)*p - s)`,
`BACKOUT(p) = (p-1)*(p-1)*((s+1)*(p-1) + s) + 1`, and, with `t = 2p` and
`s' = 1.70158 * 1.525` in both places, `BACKINOUT(p) = (t*t*((s'+1)*t - s'))/2`
for `t < 1` and `((t-2)*(t-2)*((s'+1)*(t-2) + s') + 2)/2` otherwise. -/
theorem C22_back_formulas (E : TypeEnum) (m : Libm) (p : ℚ) (h0 : 0 < p) (h1 : p < 1) :
    tween E m (E.val .BACKIN_01) p = p * p * ((1.70158 + 1) * p - 1.70158) ∧
    tween E m (E.val .BACKOUT_01) p
      = (p - 1) * (p - 1) * ((1.70158 + 1) * (p - 1) + 1.70158) + 1 ∧
    (2 * p < 1 → tween E m (E.val .BACKINOUT_01) p
      = (2 * p * (2 * p) * ((1.70158 * 1.525 + 1) * (2 * p) - 1.70158 * 1.525)) / 2) ∧
    (¬ 2 * p < 1 → tween E m (E.val .BACKINOUT_01) p
      = ((2 * p - 2) * (2 * p - 2) * ((1.70158 * 1.525 + 1) * (2 * p - 2) + 1.70158 * 1.525)
          + 2) / 2) := by
  have e : p / (1 / 2) = 2 * p := by ring
  simp only [tween_interior E m _ p h0 h1, classify_val, tweenCase, e]
  refine ⟨by ring, by ring, fun h => ?_, fun h => ?_⟩
  · rw [if_pos h]
    ring
  · rw [if_neg h]
    ring

/-- C22 at phases 1/4 and 3/4. -/
theorem C22_back_formulas_witness :
    tween sampleEnum sampleLibm (sampleEnum.val .BACKINOUT_01) (1 / 4)
      = (2 * (1 / 4) * (2 * (1 / 4))
          * ((1.70158 * 1.525 + 1) * (2 * (1 / 4)) - 1.70158 * 1.525)) / 2 ∧
    tween sampleEnum sampleLibm (sampleEnum.val .BACKINOUT_01) (3 / 4)
      = ((2 * (3 / 4) - 2) * (2 * (3 / 4) - 2)
          * ((1.70158 * 1.525 + 1) * (2 * (3 / 4) - 2) + 1.70158 * 1.525) + 2) / 2 :=
  ⟨(C22_back_formulas sampleEnum sampleLibm (1 / 4) (by norm_num) (by norm_num)).2.2.1
      (by norm_num),
   (C22_back_formulas sampleEnum sampleLibm (3 / 4) (by norm_num) (by norm_num)).2.2.2
      (by norm_num)⟩

/-- C23 as stated fails: `ELASTICINOUT_01` is evaluated with the period 0.45, not
0.3.  With `<cmath>` stand-ins that keep the argument of `sin` visible, its
value at phase 1/4 differs from the standard formula with `p = 0.3`. -/
theorem C23_elastic_counterexample :
    tween sampleEnum probeLibm (sampleEnum.val .ELASTICINOUT_01) (1 / 4)
      ≠ standardElasticInOut probeLibm 1 0.3 (0.3 / 4) (1 / 4) ∧
    ¬ (∀ (E : TypeEnum) (m : Libm) (x : ℚ), 0 < x → x < 1 →
        tween E m (E.val .ELASTICIN_01) x = standardElasticIn m 1 0.3 (0.3 / 4) x ∧
        tween E m (E.val .ELASTICOUT_01) x = standardElasticOut m 1 0.3 (0.3 / 4) x ∧
        tween E m (E.val .ELASTICINOUT_01) x = standardElasticInOut m 1 0.3 (0.3 / 4) x) := by
  have hne : tween sampleEnum probeLibm (sampleEnum.val .ELASTICINOUT_01) (1 / 4)
      ≠ standardElasticInOut probeLibm 1 0.3 (0.3 / 4) (1 / 4) := by
    rw [tween_interior _ _ _ (1 / 4) (by norm_num) (by norm_num), classify_val]
    norm_num [tweenCase, standardElasticInOut, probeLibm, pi]
  exact ⟨hne, fun h => hne (h sampleEnum probeLibm (1 / 4) (by norm_num) (by norm_num)).2.2⟩

/-- C23, amended: for every phase in (0,1), `ELASTICIN_01` and `ELASTICOUT_01` are
the standard elastic formulas with amplitude 1, period 0.3 and shift `p/4`;
`ELASTICINOUT_01` is the standard formula with amplitude 1, period
`0.3 * 1.5 = 0.45` and shift `p/4`. -/
theorem C23_elastic_amended (E : TypeEnum) (m : Libm) (x : ℚ) (h0 : 0 < x) (h1 : x < 1) :
    tween E m (E.val .ELASTICIN_01) x = standardElasticIn m 1 0.3 (0.3 / 4) x ∧
    tween E m (E.val .ELASTICOUT_01) x = standardElasticOut m 1 0.3 (0.3 / 4) x ∧
    tween E m (E.val .ELASTICINOUT_01) x
      = standardElasticInOut m 1 (0.3 * 1.5) (0.3 * 1.5 / 4) x := by
  have e : x / (1 / 2) = 2 * x := by ring
  simp only [tween_interior E m _ x h0 h1, classify_val, tweenCase, standardElasticIn,
    standardElasticOut, standardElasticInOut, e, div_one, mul_one, one_mul]
  refine ⟨?_, ?_, ?_⟩
  · norm_num
  · norm_num
  · split_ifs <;> norm_num

/-- C23, amended, at phase 1/4 with the stand-ins that keep arguments visible. -/
theorem C23_elastic_amended_witness :
    tween sampleEnum probeLibm (sampleEnum.val .ELASTICINOUT_01) (1 / 4)
      = standardElasticInOut probeLibm 1 (0.3 * 1.5) (0.3 * 1.5 / 4) (1 / 4) :=
  (C23_elastic_amended sampleEnum probeLibm (1 / 4) (by norm_num) (by norm_num)).2.2

/-! ## The tokenizer: the claim -/

/-- The loop of `tokenize` keeps every finished token non-empty and every token
free of delimiters, and the tokens together are the characters read so far
that are no delimiters. -/
theorem foldl_tokens (chars : List Char) (s : List Char) (done : List (List Char))
    (cur : List Char)
    (hdone : ∀ tk ∈ done, tk ≠ [] ∧ ∀ c ∈ tk, c ∉ chars) (hcur : ∀ c ∈ cur, c ∉ chars) :
    ∃ (done1 : List (List Char)) (cur1 : List Char),
      s.foldl (tokenizeStep chars) (done ++ [cur]) = done1 ++ [cur1] ∧
      (∀ tk ∈ done1, tk ≠ [] ∧ ∀ c ∈ tk, c ∉ chars) ∧ (∀ c ∈ cur1, c ∉ chars) ∧
      (done1 ++ [cur1]).flatten
        = (done ++ [cur]).flatten ++ s.filter (fun c => decide (c ∉ chars)) := by
  induction s generalizing done cur with
  | nil => exact ⟨done, cur, rfl, hdone, hcur, by simp⟩
  | cons a s ih =>
    rw [List.foldl_cons, tokenizeStep_concat]
    by_cases ha : a ∉ chars
    · rw [if_pos ha]
      obtain ⟨d1, c1, e, i1, i2, i3⟩ := ih done (cur ++ [a]) hdone (by
        intro c hc
        rcases List.mem_append.mp hc with h | h
        · exact hcur c h
        · rw [List.mem_singleton.mp h]
          exact ha)
      refine ⟨d1, c1, e, i1, i2, ?_⟩
      rw [i3]
      simp [List.filter_cons, ha]
    · rw [if_neg ha]
      by_cases hl : cur.length ≠ 0
      · rw [if_pos hl]
        obtain ⟨d1, c1, e, i1, i2, i3⟩ := ih (done ++ [cur]) [] (by
          intro tk htk
          rcases List.mem_append.mp htk with h | h
          · exact hdone tk h
          · rw [List.mem_singleton.mp h]
            exact ⟨fun h0 => hl (by rw [h0]; rfl), hcur⟩) (by simp)
        refine ⟨d1, c1, e, i1, i2, ?_⟩
        rw [i3]
        simp [List.filter_cons, ha]
      · rw [if_neg hl]
        obtain ⟨d1, c1, e, i1, i2, i3⟩ := ih done cur hdone hcur
        refine ⟨d1, c1, e, i1, i2, ?_⟩
        rw [i3]
        simp [List.filter_cons, ha]

theorem rdropWhile_nonempty (l : List (List Char)) (h : ∀ tk ∈ l, tk ≠ []) :
    l.rdropWhile (fun tk => tk.length == 0) = l := by
  rw [List.rdropWhile_eq_self_iff]
  intro hl
  have := h _ (List.getLast_mem hl)
  simpa using this

/-- C24: for every text and every set of ASCII delimiters, the tokens that
`custom::tokenize` returns are non-empty and contain no delimiter, their
concatenation is the text with every delimiter removed, and a text without
any other character - the empty text among them - gives no token. -/
theorem C24_tokenize (self chars : List Char) (_hascii : ∀ c ∈ chars, c.toNat < 128) :
    (∀ tk ∈ tokenize self chars, tk ≠ [] ∧ ∀ c ∈ tk, c ∉ chars) ∧
    (tokenize self chars).flatten = self.filter (fun c => decide (c ∉ chars)) ∧
    ((∀ c ∈ self, c ∈ chars) → tokenize self chars = []) ∧
    tokenize [] chars = [] := by
  obtain ⟨d1, c1, e, i1, i2, i3⟩ := foldl_tokens chars self [] [] (by simp) (by simp)
  have e' : self.foldl (tokenizeStep chars) [[]] = d1 ++ [c1] := e
  have i3' : (d1 ++ [c1]).flatten = self.filter (fun c => decide (c ∉ chars)) := by
    rw [i3]
    simp
  have hd1 : d1.rdropWhile (fun tk => tk.length == 0) = d1 :=
    rdropWhile_nonempty d1 (fun tk h => (i1 tk h).1)
  have htok : tokenize self chars = if c1 = [] then d1 else d1 ++ [c1] := by
    show List.rdropWhile (fun tk => tk.length == 0)
      (self.foldl (tokenizeStep chars) [[]]) = _
    rw [e']
    by_cases hc : c1 = []
    · rw [if_pos hc, hc, List.rdropWhile_concat_pos _ _ _ (by simp), hd1]
    · rw [if_neg hc, List.rdropWhile_concat_neg _ _ _ (by simpa using hc)]
  have hall : ∀ tk ∈ tokenize self chars, tk ≠ [] ∧ ∀ c ∈ tk, c ∉ chars := by
    intro tk htk
    rw [htok] at htk
    by_cases hc : c1 = []
    · rw [if_pos hc] at htk
      exact i1 tk htk
    · rw [if_neg hc] at htk
      rcases List.mem_append.mp htk with h | h
      · exact i1 tk h
      · rw [List.mem_singleton.mp h]
        exact ⟨hc, i2⟩
  have hflat : (tokenize self chars).flatten = self.filter (fun c => decide (c ∉ chars)) := by
    rw [htok, ← i3']
    by_cases hc : c1 = []
    · rw [if_pos hc, hc]
      simp
    · rw [if_neg hc]
  refine ⟨hall, hflat, ?_, tokenize_nil chars⟩
  intro hdel
  have hnil : self.filter (fun c => decide (c ∉ chars)) = [] := by
    rw [List.filter_eq_nil_iff]
    intro c hc
    simpa using hdel c hc
  rw [hnil] at hflat
  cases ht : tokenize self chars with
  | nil => rfl
  | cons tk rest =>
    exfalso
    have hne := (hall tk (by rw [ht]; exact List.mem_cons_self _ _)).1
    rw [ht] at hflat
    simp only [List.flatten_cons, List.append_eq_nil] at hflat
    exact hne hflat.1

/-- C24 for the text `--a b-` with the delimiters hyphen and space: the tokens
are `a` and `b`. -/
theorem C24_tokenize_witness :
    (tokenize ['-', '-', 'a', ' ', 'b', '-'] ['-', ' ']).flatten = ['a', 'b'] ∧
    ∀ tk ∈ tokenize ['-', '-', 'a', ' ', 'b', '-'] ['-', ' '],
      tk ≠ [] ∧ ∀ c ∈ tk, c ∉ ['-', ' '] :=
  ⟨(C24_tokenize ['-', '-', 'a', ' ', 'b', '-'] ['-', ' '] (by decide)).2.1,
   (C24_tokenize ['-', '-', 'a', ' ', 'b', '-'] ['-', ' '] (by decide)).1⟩

end sand
